import Mathlib

/-!
Verification development for the cb-tumblebug core: a shallow embedding of
the resource manager (vNet/subnet lifecycle), the credential/connection
registry, and the id-checking utility, with theorems settling the frozen
claims about them.

Conventions:
* Go functions returning `(T, error)` are embedded as `Except String T`
  (or `GoResult T` when a Go runtime panic is reachable) together with
  explicit state passing for the KV store and the private-key map.
* Machine bytes are `Nat` values; byte slices are `List Nat`.
* Library-level crypto, base64, and the remote broker are modelled as
  oracle parameters: the embedding is faithful to the code at those
  boundaries without fixing the external behaviour.
-/

namespace Tumblebug

/-- Result of a Go function call: a normal value, a returned `error`, or a
runtime panic (index/slice out of range). -/
inductive GoResult (α : Type) where
  | ok (a : α)
  | err (e : String)
  | panicked (msg : String)
  deriving Repr, DecidableEq

/-! ### Character classes used by `CheckString` (src/src/core/common/utility.go:104) -/

/-- ASCII letter `[a-zA-Z]`, the first-character class of the id rule as
the spec states it. -/
def isAsciiLetter (c : Char) : Bool :=
  (97 ≤ c.toNat && c.toNat ≤ 122) || (65 ≤ c.toNat && c.toNat ≤ 90)

/-- ASCII digit `[0-9]`. -/
def isAsciiDigit (c : Char) : Bool :=
  48 ≤ c.toNat && c.toNat ≤ 57

/-- ASCII letter or digit `[a-zA-Z0-9]`, the tail classes of the id rule
as the spec states it. -/
def isAsciiAlnum (c : Char) : Bool :=
  isAsciiLetter c || isAsciiDigit c

/-- What `[a-z]` matches under Go's `(?i)` flag. Go regexp expands a
case-insensitive class along Unicode simple case-folding orbits: besides
`A`-`Z`, the orbit of `k` contains U+212A (Kelvin sign) and the orbit of
`s` contains U+017F (long s); these are the only non-ASCII members of the
fold orbits of `a`-`z`, `0`-`9`, `-` and `+`. -/
def isLetterClass (c : Char) : Bool :=
  isAsciiLetter c || c.toNat = 0x212A || c.toNat = 0x017F

/-- Character class `[a-z0-9]` under `(?i)`, with the case-folded
characters U+212A and U+017F. -/
def isAlnumClass (c : Char) : Bool :=
  isLetterClass c || isAsciiDigit c

/-- Character class `[-a-z0-9+]` under `(?i)`: the characters the regex in
`CheckString` allows in the middle of a name, with the case-folded
characters U+212A and U+017F. -/
def isMidClass (c : Char) : Bool :=
  isAlnumClass c || c = '-' || c = '+'

/-- Length of the preferred (greedy) match of `[-a-z0-9+]*[a-z0-9]` at the
start of `cs`, or `0` when the group can only match the empty string.
This is the backtracking submatch Go's regexp engine produces for the
parenthesised group of `(?i)[a-z]([-a-z0-9+]*[a-z0-9])?`. -/
def groupLen : List Char → Nat
  | [] => 0
  | c :: rest =>
    if isMidClass c then
      let r := groupLen rest
      if 0 < r then r + 1
      else if isAlnumClass c then 1 else 0
    else 0

/-- Leftmost preferred match of `(?i)[a-z]([-a-z0-9+]*[a-z0-9])?` in `cs`,
i.e. what `r.FindString(name)` returns in `CheckString`
(src/src/core/common/utility.go:111-112); `[]` when there is no match. -/
def findString : List Char → List Char
  | [] => []
  | c :: rest =>
    if isLetterClass c then c :: rest.take (groupLen rest)
    else findString rest

/-- CheckString from src/src/core/common/utility.go:104-123: rejects the
empty string, then accepts `name` exactly when the leftmost regex match
equals the whole string. -/
def CheckString (name : String) : Except String Unit :=
  if name = "" then Except.error "The provided string is empty"
  else if findString name.data = name.data then Except.ok ()
  else Except.error (name ++ ": The name must follow these rules: " ++
    "1. The first character must be a letter (case-insensitive). " ++
    "2. All following characters can be a dash, letter (case-insensitive), digit, or +. " ++
    "3. The last character cannot be a dash.")

/-- Tail of the id rule claimed by the spec, as an anchored match:
`[a-zA-Z0-9-]*[a-zA-Z0-9]` or empty. -/
def specIdTail : List Char → Bool
  | [] => true
  | [c] => isAsciiAlnum c
  | c :: rest => (isAsciiAlnum c || c = '-') && specIdTail rest

/-- Id rule exactly as the spec claims it:
`^[a-zA-Z][a-zA-Z0-9-]*[a-zA-Z0-9]$`, with a single letter also accepted. -/
def specIdRule (s : String) : Bool :=
  match s.data with
  | [] => false
  | c :: rest => isAsciiLetter c && specIdTail rest

/-- Tail of the rule the code actually implements, as an anchored match:
`[-a-zA-Z0-9+]*[a-zA-Z0-9]` (with the case-folded characters U+212A and
U+017F in both classes) or empty. -/
def implIdTail : List Char → Bool
  | [] => true
  | [c] => isAlnumClass c
  | c :: rest => isMidClass c && implIdTail rest

/-- Id rule implemented by `CheckString`, written as an anchored full
match: `^[a-zA-Z]([-a-zA-Z0-9+]*[a-zA-Z0-9])?$` where every letter class
additionally matches the case-folded characters U+212A and U+017F. -/
def implIdRule (s : String) : Bool :=
  match s.data with
  | [] => false
  | c :: rest => isLetterClass c && implIdTail rest

theorem groupLen_le (cs : List Char) : groupLen cs ≤ cs.length := by
  induction cs with
  | nil => simp [groupLen]
  | cons c rest ih =>
    simp only [groupLen, List.length_cons]
    split
    · split
      · omega
      · split <;> omega
    · omega

theorem findString_length_le (cs : List Char) : (findString cs).length ≤ cs.length := by
  induction cs with
  | nil => simp [findString]
  | cons c rest ih =>
    simp only [findString]
    split
    · simp only [List.length_cons, List.length_take]
      omega
    · simpa using Nat.le_trans ih (Nat.le_succ _)

theorem alnum_mid {c : Char} (h : isAlnumClass c = true) : isMidClass c = true := by
  simp [isMidClass, h]

/-- Unfolding equation for `groupLen` on a cons cell. -/
theorem groupLen_cons (c : Char) (rest : List Char) :
    groupLen (c :: rest) =
      if isMidClass c then
        if 0 < groupLen rest then groupLen rest + 1
        else if isAlnumClass c then 1 else 0
      else 0 := rfl

/-- The greedy group consumes the whole tail exactly when the tail matches
the anchored tail pattern. -/
theorem groupLen_eq_length_iff (cs : List Char) :
    (groupLen cs = cs.length) ↔ implIdTail cs = true := by
  induction cs with
  | nil => simp [groupLen, implIdTail]
  | cons c rest ih =>
    rw [groupLen_cons]
    cases hm : isMidClass c with
    | false =>
      rw [if_neg (show ¬(false = true) by simp)]
      cases rest with
      | nil =>
        have h1 : implIdTail [c] = isAlnumClass c := rfl
        rw [h1]
        constructor
        · intro h
          simp at h
        · intro h
          exact absurd (alnum_mid h) (by simp [hm])
      | cons d t =>
        have h1 : implIdTail (c :: d :: t) = (isMidClass c && implIdTail (d :: t)) := rfl
        rw [h1, hm]
        simp
    | true =>
      rw [if_pos rfl]
      cases rest with
      | nil =>
        have h1 : implIdTail [c] = isAlnumClass c := rfl
        have h0 : groupLen ([] : List Char) = 0 := rfl
        rw [h1, h0]
        simp only [Nat.lt_irrefl, if_false, List.length_cons, List.length_nil]
        cases ha : isAlnumClass c <;> simp [ha]
      | cons d t =>
        have h1 : implIdTail (c :: d :: t) = (isMidClass c && implIdTail (d :: t)) := rfl
        rw [h1, hm, Bool.true_and, ← ih]
        simp only [List.length_cons]
        by_cases hr : 0 < groupLen (d :: t)
        · simp only [hr, if_true]
          omega
        · simp only [hr, if_false]
          constructor
          · intro h
            split at h <;> omega
          · intro h
            exact absurd h (by omega)

/-- The leftmost match equals the whole nonempty string exactly when the
string fully matches the anchored pattern. -/
theorem findString_eq_self_iff (c : Char) (rest : List Char) :
    (findString (c :: rest) = c :: rest) ↔
      (isLetterClass c = true ∧ implIdTail rest = true) := by
  by_cases hl : isLetterClass c = true
  · have hstep : findString (c :: rest) = c :: rest.take (groupLen rest) := by
      simp [findString, hl]
    rw [hstep]
    simp only [List.cons.injEq, true_and, hl, true_and]
    constructor
    · intro h
      have hlen : (List.take (groupLen rest) rest).length = rest.length := by rw [h]
      rw [List.length_take] at hlen
      have := groupLen_le rest
      have hgl : groupLen rest = rest.length := by omega
      exact (groupLen_eq_length_iff rest).mp hgl
    · intro h
      have hgl := (groupLen_eq_length_iff rest).mpr h
      rw [hgl]
      simp
  · have hstep : findString (c :: rest) = findString rest := by
      simp [findString, hl]
    rw [hstep]
    constructor
    · intro h
      exfalso
      have h1 := findString_length_le rest
      have h2 : (findString rest).length = (c :: rest).length := by rw [h]
      simp only [List.length_cons] at h2
      omega
    · intro h
      exact absurd h.1 hl

/-- Characterization of `CheckString`: acceptance coincides with the
anchored rule `^[a-zA-Z]([-a-zA-Z0-9+]*[a-zA-Z0-9])?$`. -/
theorem CheckString_ok_iff (s : String) :
    CheckString s = Except.ok () ↔ implIdRule s = true := by
  by_cases hs : s = ""
  · subst hs
    rw [show CheckString "" = Except.error "The provided string is empty" from rfl,
      show implIdRule "" = false from rfl]
    simp
  · obtain ⟨c, rest, h⟩ : ∃ c rest, s.data = c :: rest := by
      cases hd : s.data with
      | nil => exact absurd (by cases s; simp_all) hs
      | cons c rest => exact ⟨c, rest, rfl⟩
    have h1 : CheckString s = Except.ok () ↔ findString s.data = s.data := by
      unfold CheckString
      simp only [hs, if_false]
      split <;> simp_all
    have h2 : implIdRule s = (isLetterClass c && implIdTail rest) := by
      simp [implIdRule, h]
    rw [h1, h, findString_eq_self_iff, h2]
    simp

/-- Every character of a string accepted by the implemented rule lies in
the class of letters (with the case-folded characters U+212A and U+017F),
digits, dashes and plus signs. -/
theorem implIdTail_all_mid (cs : List Char) (h : implIdTail cs = true) :
    ∀ c ∈ cs, isMidClass c = true := by
  induction cs with
  | nil => simp
  | cons c rest ih =>
    intro d hd
    cases rest with
    | nil =>
      have h1 : implIdTail [c] = isAlnumClass c := rfl
      rw [h1] at h
      rcases List.mem_singleton.mp hd with rfl
      exact alnum_mid h
    | cons e t =>
      have h1 : implIdTail (c :: e :: t) = (isMidClass c && implIdTail (e :: t)) := rfl
      rw [h1] at h
      have h2 := (Bool.and_eq_true _ _).mp h
      rcases List.mem_cons.mp hd with rfl | hd2
      · exact h2.1
      · exact ih h2.2 d hd2

/-- Decidable equality for `Except`, used to evaluate the embedded
functions on concrete inputs. -/
instance {ε α : Type} [DecidableEq ε] [DecidableEq α] : DecidableEq (Except ε α) := fun a b =>
  match a, b with
  | Except.ok x, Except.ok y =>
    if h : x = y then isTrue (by rw [h]) else isFalse (by intro hh; cases hh; exact h rfl)
  | Except.ok _, Except.error _ => isFalse (by intro h; cases h)
  | Except.error _, Except.ok _ => isFalse (by intro h; cases h)
  | Except.error x, Except.error y =>
    if h : x = y then isTrue (by rw [h]) else isFalse (by intro hh; cases hh; exact h rfl)

/-- C8, counterexample: the claim states `CheckString` accepts exactly the
strings matching `^[a-zA-Z][a-zA-Z0-9-]*[a-zA-Z0-9]$` (single letters also
accepted) and accepts no string containing a character outside letters,
digits, and dashes; but `CheckString "a+b"` succeeds although `"a+b"`
contains `+` and does not match that rule, and `CheckString "ſ"`
succeeds although U+017F (long s, which `(?i)` case-folds with `s`) is
outside the claimed character set. -/
theorem claim_C8_counterexample :
    (CheckString "a+b" = Except.ok () ∧ specIdRule "a+b" = false) ∧
    (CheckString "\u017F" = Except.ok () ∧ specIdRule "\u017F" = false) := by
  refine ⟨⟨?_, ?_⟩, ?_, ?_⟩ <;> decide

/-- C8, amended claim: `CheckString s` returns nil exactly when `s` matches
`^[a-zA-Z]([-a-zA-Z0-9+]*[a-zA-Z0-9])?$` under Go's `(?i)` Unicode simple
case folding, so the middle characters may also be `+` and every letter
class additionally matches U+212A (Kelvin sign, folded with `k`) and
U+017F (long s, folded with `s`); in particular "a", "a--b", "ſ" and
"K" are accepted while "1a", "a-", and the empty string are rejected,
and no string containing a character outside this folded class of letters,
digits, dashes, and plus signs is accepted. -/
theorem claim_C8_amended :
    (∀ s : String, CheckString s = Except.ok () ↔ implIdRule s = true) ∧
    CheckString "a" = Except.ok () ∧ CheckString "a--b" = Except.ok () ∧
    CheckString "ſ" = Except.ok () ∧ CheckString "K" = Except.ok () ∧
    CheckString "1a" ≠ Except.ok () ∧ CheckString "a-" ≠ Except.ok () ∧
    CheckString "" ≠ Except.ok () ∧
    (∀ s : String, ∀ c ∈ s.data, isMidClass c = false →
      CheckString s ≠ Except.ok ()) := by
  refine ⟨CheckString_ok_iff, by decide, by decide, by decide, by decide,
    by decide, by decide, by decide, ?_⟩
  intro s c hc hmid hok
  have h1 := (CheckString_ok_iff s).mp hok
  cases hd : s.data with
  | nil =>
    rw [hd] at hc
    simp at hc
  | cons a rest =>
    have he : implIdRule s = (isLetterClass a && implIdTail rest) := by
      simp [implIdRule, hd]
    rw [he] at h1
    have h2 := (Bool.and_eq_true _ _).mp h1
    rw [hd] at hc
    rcases List.mem_cons.mp hc with rfl | hc2
    · have ha : isAlnumClass c = true := by
        simp [isAlnumClass, h2.1]
      rw [alnum_mid ha] at hmid
      exact absurd hmid (by simp)
    · rw [implIdTail_all_mid rest h2.2 c hc2] at hmid
      exact absurd hmid (by simp)

/-- C8, witness: the amended theorem applied at the concrete string
"a_b" with the non-allowed character. -/
theorem claim_C8_amended_witness : CheckString "a_b" ≠ Except.ok () :=
  claim_C8_amended.2.2.2.2.2.2.2.2 "a_b" (Char.ofNat 95) (by decide) (by decide)

/-! ### Data model (package `model`; its source file is outside src/, the
fields are the ones the src/ code reads and writes) -/

/-- Key/value pair, model.KeyValue. -/
structure KeyValuePair where
  Key : String := ""
  Value : String := ""
  deriving Repr, DecidableEq

/-- Identifier pair returned by the broker, model.IID. -/
structure IID where
  NameId : String := ""
  SystemId : String := ""
  deriving Repr, DecidableEq

/-- Subnet part of a vNet creation request, model.TbSubnetReq (fields used
by src/unnamed/part_002). -/
structure TbSubnetReq where
  Name : String := ""
  IPv4_CIDR : String := ""
  Zone : String := ""
  TagList : List KeyValuePair := []
  deriving Repr, DecidableEq

/-- vNet creation request, model.TbVNetReq (fields used by
src/unnamed/part_002). -/
structure TbVNetReq where
  Name : String := ""
  ConnectionName : String := ""
  CidrBlock : String := ""
  Description : String := ""
  SubnetInfoList : List TbSubnetReq := []
  TagList : List KeyValuePair := []
  deriving Repr, DecidableEq

/-- Stored subnet object, model.TbSubnetInfo (fields assigned in
src/unnamed/part_002). -/
structure TbSubnetInfo where
  Id : String := ""
  Name : String := ""
  Uuid : String := ""
  ConnectionName : String := ""
  CspVNetId : String := ""
  CspVNetName : String := ""
  CspSubnetId : String := ""
  CspSubnetName : String := ""
  Status : String := ""
  Zone : String := ""
  IPv4_CIDR : String := ""
  TagList : List KeyValuePair := []
  KeyValueList : List KeyValuePair := []
  deriving Repr, DecidableEq

/-- Stored vNet object, model.TbVNetInfo (fields assigned in
src/unnamed/part_002). -/
structure TbVNetInfo where
  Id : String := ""
  Name : String := ""
  Uuid : String := ""
  ConnectionName : String := ""
  CidrBlock : String := ""
  CspVNetId : String := ""
  CspVNetName : String := ""
  Description : String := ""
  Status : String := ""
  SystemLabel : String := ""
  SubnetInfoList : List TbSubnetInfo := []
  TagList : List KeyValuePair := []
  KeyValueList : List KeyValuePair := []
  deriving Repr, DecidableEq

/-- Simple result message, model.SimpleMsg. -/
structure SimpleMsg where
  Message : String := ""
  deriving Repr, DecidableEq

/-- Region detail from the static catalog, model.RegionDetail. -/
structure RegionDetail where
  RegionId : String := ""
  RegionName : String := ""
  Zones : List String := []
  deriving Repr, DecidableEq

/-- Assigned region/zone of a connection, model.RegionZoneInfo. -/
structure RegionZoneInfo where
  AssignedRegion : String := ""
  AssignedZone : String := ""
  deriving Repr, DecidableEq

/-- Connection configuration, model.ConnConfig (fields used by
src/src/core/common/utility.go). -/
structure ConnConfig where
  ConfigName : String := ""
  ProviderName : String := ""
  DriverName : String := ""
  CredentialName : String := ""
  CredentialHolder : String := ""
  RegionZoneInfoName : String := ""
  RegionZoneInfo : RegionZoneInfo := {}
  RegionDetail : RegionDetail := {}
  Verified : Bool := false
  RegionRepresentative : Bool := false
  deriving Repr, DecidableEq

/-- Provider detail of the static catalog, model.CSPDetail (fields used by
src/src/core/common/utility.go). -/
structure CSPDetail where
  Driver : String := ""
  Regions : List (String × RegionDetail) := []
  deriving Repr, DecidableEq

/-- Static cloud catalog, model.CloudInfo; read-only after bootstrap. -/
structure CloudInfo where
  CSPs : List (String × CSPDetail) := []
  deriving Repr, DecidableEq

/-! ### KV store (kvstore package; outside src/).
Modelled from the spec: §4.1 describes a hierarchical string→string store
with atomic `Put(k,v)`, `Get(k) → (v, found)`, `Delete(k)` and prefix
listing `List(prefix)`. Values here carry the unmarshalled entity (the Go
code stores its JSON encoding; marshal/unmarshal round-trip is the JSON
library's contract, outside the core). -/

/-- Value stored in the KV store: an entity, as the Go code would marshal
it to JSON. -/
inductive StoreValue where
  | vnet (v : TbVNetInfo)
  | subnet (s : TbSubnetInfo)
  | conn (c : ConnConfig)
  deriving Repr, DecidableEq

/-- The KV store: an association of keys to stored values. -/
abbrev KVStore := List (String × StoreValue)

/-- String prefix test on the underlying character lists (what the store's
prefix listing uses). -/
def strHasPfx (p k : String) : Bool := p.data.isPrefixOf k.data

/-- Modelled from the spec: `kvstore.Put` stores `v` under `k`, replacing
any previous value. -/
def kvPut (st : KVStore) (k : String) (v : StoreValue) : KVStore :=
  st.filter (fun e => !(e.1 == k)) ++ [(k, v)]

/-- Modelled from the spec: `kvstore.Delete` removes the entry under `k`. -/
def kvDelete (st : KVStore) (k : String) : KVStore :=
  st.filter (fun e => !(e.1 == k))

/-- Modelled from the spec: `kvstore.GetKv` returns the value stored under
`k` when present (the Go code signals absence by an empty KeyValue). -/
def kvGet (st : KVStore) (k : String) : Option StoreValue :=
  (st.find? (fun e => e.1 == k)).map (fun e => e.2)

/-- Modelled from the spec: `kvstore.GetKvList` returns every entry whose
key extends the given prefix. -/
def kvGetKvList (st : KVStore) (p : String) : List (String × StoreValue) :=
  st.filter (fun e => strHasPfx p e.1)

/-- Finding a key is unaffected by filtering out a different key. -/
theorem find?_filter_ne (st : List (String × StoreValue)) (a k : String) (h : k ≠ a) :
    (st.filter (fun e => !(e.1 == a))).find? (fun e => e.1 == k) =
      st.find? (fun e => e.1 == k) := by
  induction st with
  | nil => simp
  | cons b rest ih =>
    by_cases hb : b.1 = a
    · rw [List.filter_cons_of_neg (by simp [hb])]
      rw [List.find?_cons_of_neg _ (by simp [hb, Ne.symm h])]
      exact ih
    · rw [List.filter_cons_of_pos (by simp [hb])]
      by_cases hc : b.1 = k
      · rw [List.find?_cons_of_pos _ (by simp [hc]), List.find?_cons_of_pos _ (by simp [hc])]
      · rw [List.find?_cons_of_neg _ (by simp [hc]), List.find?_cons_of_neg _ (by simp [hc])]
        exact ih

/-- Membership in the store after a delete. -/
theorem mem_kvDelete (st : KVStore) (k : String) (e : String × StoreValue) :
    e ∈ kvDelete st k ↔ e ∈ st ∧ e.1 ≠ k := by
  unfold kvDelete
  rw [List.mem_filter]
  simp

/-- Deleting the key just written cancels the write. -/
theorem kvDelete_kvPut (st : KVStore) (k : String) (v : StoreValue) :
    kvDelete (kvPut st k v) k = kvDelete st k := by
  unfold kvDelete kvPut
  rw [List.filter_append]
  simp

/-- Reading the key just written returns the new value. -/
theorem kvGet_kvPut_self (st : KVStore) (k : String) (v : StoreValue) :
    kvGet (kvPut st k v) k = some v := by
  unfold kvGet kvPut
  rw [List.find?_append]
  have h : List.find? (fun e => e.1 == k) (List.filter (fun e => !(e.1 == k)) st) = none := by
    rw [List.find?_eq_none]
    intro e he
    have := (List.mem_filter.mp he).2
    simp_all
  rw [h]
  simp [List.find?]

/-- Reading another key is unaffected by a write. -/
theorem kvGet_kvPut_other (st : KVStore) (k k2 : String) (v : StoreValue) (h : k2 ≠ k) :
    kvGet (kvPut st k v) k2 = kvGet st k2 := by
  unfold kvGet kvPut
  rw [List.find?_append, find?_filter_ne st k k2 h]
  have h2 : List.find? (fun e => e.1 == k2) [(k, v)] = none := by
    rw [List.find?_cons_of_neg _ (by simp [Ne.symm h])]
    rfl
  rw [h2]
  cases st.find? (fun e => e.1 == k2) <;> simp

/-- Reading another key is unaffected by a delete. -/
theorem kvGet_kvDelete_other (st : KVStore) (k k2 : String) (h : k2 ≠ k) :
    kvGet (kvDelete st k) k2 = kvGet st k2 := by
  unfold kvGet kvDelete
  rw [find?_filter_ne st k k2 h]

/-- Fold deleting a list of keys. -/
def kvDeleteAll (st : KVStore) (ks : List String) : KVStore :=
  ks.foldl (fun s k => kvDelete s k) st

/-- Membership after deleting a list of keys. -/
theorem mem_kvDeleteAll (ks : List String) (st : KVStore) (e : String × StoreValue) :
    e ∈ kvDeleteAll st ks ↔ e ∈ st ∧ e.1 ∉ ks := by
  induction ks generalizing st with
  | nil => simp [kvDeleteAll]
  | cons k rest ih =>
    unfold kvDeleteAll at ih ⊢
    rw [List.foldl_cons, ih, mem_kvDelete]
    simp only [List.mem_cons]
    constructor
    · intro h
      refine ⟨h.1.1, ?_⟩
      intro hc
      rcases hc with hc | hc
      · exact h.1.2 hc
      · exact h.2 hc
    · intro h
      exact ⟨⟨h.1, fun hc => h.2 (Or.inl hc)⟩, fun hc => h.2 (Or.inr hc)⟩

/-- Reading a key not in the deleted list is unaffected. -/
theorem kvGet_kvDeleteAll_not_mem (ks : List String) (st : KVStore) (k : String)
    (h : k ∉ ks) :
    kvGet (kvDeleteAll st ks) k = kvGet st k := by
  induction ks generalizing st with
  | nil => simp [kvDeleteAll]
  | cons a rest ih =>
    unfold kvDeleteAll at ih ⊢
    rw [List.foldl_cons]
    have hk : k ∉ rest := fun hc => h (List.mem_cons_of_mem _ hc)
    rw [ih (kvDelete st a) hk]
    exact kvGet_kvDelete_other st a k (fun hc => h (by simp [hc]))

/-- A prefix is never longer than the string it starts. -/
theorem strHasPfx_length_le (p k : String) (h : strHasPfx p k = true) :
    p.length ≤ k.length := by
  unfold strHasPfx at h
  exact List.IsPrefix.length_le (List.isPrefixOf_iff_prefix.mp h)

/-- A string starts every extension of itself. -/
theorem strHasPfx_append (p t : String) : strHasPfx p (p ++ t) = true := by
  unfold strHasPfx
  rw [List.isPrefixOf_iff_prefix, String.data_append]
  exact List.prefix_append _ _

/-! ### Keys and statuses (src/src/core/common/utility.go and
src/unnamed/part_002) -/

/-- Resource-kind names of the model package (values fixed by the key
layout in the spec, §3). -/
def StrVNet : String := "vNet"

/-- Subnet resource-kind name. -/
def StrSubnet : String := "subnet"

/-- GenResourceKey from src/src/core/common/utility.go:210-225. -/
def GenResourceKey (nsId resourceType resourceId : String) : String :=
  if resourceType = "image" ∨ resourceType = "customImage" ∨ resourceType = "sshKey" ∨
      resourceType = "spec" ∨ resourceType = StrVNet ∨ resourceType = "securityGroup" ∨
      resourceType = "dataDisk" then
    "/ns/" ++ nsId ++ "/resources/" ++ resourceType ++ "/" ++ resourceId
  else "/invalidKey"

/-- GenChildResourceKey from src/src/core/common/utility.go:228-237. -/
def GenChildResourceKey (nsId resourceType parentResourceId resourceId : String) : String :=
  if resourceType = StrSubnet then
    "/ns/" ++ nsId ++ "/resources/" ++ StrVNet ++ "/" ++ parentResourceId ++ "/" ++
      resourceType ++ "/" ++ resourceId
  else "/invalidKey"

/-- GenConnectionKey from src/src/core/common/utility.go:180-182. -/
def GenConnectionKey (connectionId : String) : String :=
  "/connection/" ++ connectionId

/-- Network status constant (src/unnamed/part_002:38). -/
def NetworkOnConfiguring : String := "Configuring"

/-- Network status constant (src/unnamed/part_002:41). -/
def NetworkOnDeleting : String := "Deleting"

/-- Network status constant (src/unnamed/part_002:44). -/
def NetworkOnRegistering : String := "Registering"

/-- Network status constant (src/unnamed/part_002:48). -/
def NetworkAvailable : String := "Available"

/-- Network status constant (src/unnamed/part_002:51). -/
def NetworkInUse : String := "InUse"

/-- Network status constant (src/unnamed/part_002:54). -/
def NetworkUnknown : String := "Unknown"

/-- Network status constant (src/unnamed/part_002:58). -/
def NetworkErrorOnConfiguring : String := "ErrorOnConfiguring"

/-- Network status constant (src/unnamed/part_002:61). -/
def NetworkErrorOnDeleting : String := "ErrorOnDeleting"

/-! ### Spider request/response shapes (src/unnamed/part_002:154-253) -/

/-- Spider subnet description inside a create request
(src/unnamed/part_002, spiderAddSubnetRequestInfo). -/
structure SpiderAddSubnetRequestInfo where
  Name : String := ""
  IPv4_CIDR : String := ""
  Zone : String := ""
  TagList : List KeyValuePair := []
  deriving Repr, DecidableEq

/-- Spider VPC create request info (src/unnamed/part_002:184-189). -/
structure SpiderCreateVPCRequestInfo where
  Name : String := ""
  IPv4_CIDR : String := ""
  SubnetInfoList : List SpiderAddSubnetRequestInfo := []
  TagList : List KeyValuePair := []
  deriving Repr, DecidableEq

/-- Spider VPC create request (src/unnamed/part_002:178-182). -/
structure SpiderCreateVPCRequest where
  ConnectionName : String := ""
  ReqInfo : SpiderCreateVPCRequestInfo := {}
  deriving Repr, DecidableEq

/-- Spider subnet info in responses (union struct used by
src/unnamed/part_002). -/
structure SpiderSubnetInfo where
  IId : IID := {}
  Zone : String := ""
  IPv4_CIDR : String := ""
  TagList : List KeyValuePair := []
  KeyValueList : List KeyValuePair := []
  deriving Repr, DecidableEq

/-- Spider VPC info in responses (src/unnamed/part_002:246-253). -/
structure SpiderVPCInfo where
  IId : IID := {}
  IPv4_CIDR : String := ""
  SubnetInfoList : List SpiderSubnetInfo := []
  TagList : List KeyValuePair := []
  KeyValueList : List KeyValuePair := []
  deriving Repr, DecidableEq

/-! ### Validation (src/unnamed/part_002:66-152) -/

/-- ASCII lower-casing of a character (strings.ToLower at the ASCII
boundary). -/
def charToLower (c : Char) : Char :=
  if 65 ≤ c.toNat ∧ c.toNat ≤ 90 then Char.ofNat (c.toNat + 32) else c

/-- ASCII upper-casing of a character (strings.ToUpper at the ASCII
boundary). -/
def charToUpper (c : Char) : Char :=
  if 97 ≤ c.toNat ∧ c.toNat ≤ 122 then Char.ofNat (c.toNat - 32) else c

/-- strings.ToLower from the Go strings package (ASCII boundary). -/
def strToLower (s : String) : String := String.mk (s.data.map charToLower)

/-- strings.ToUpper from the Go strings package (ASCII boundary). -/
def strToUpper (s : String) : String := String.mk (s.data.map charToUpper)

/-- EqualFold on ASCII strings, strings.EqualFold as used by the code. -/
def strEqFold (a b : String) : Bool := strToLower a == strToLower b

/-- ContainsZone from src/unnamed/part_002:145-152. -/
def ContainsZone (zones : List String) (zone : String) : Bool :=
  zones.any (fun z => z == zone)

/-- GetRegion from src/src/core/common/utility.go:973-1000: looks the
region up in the static catalog, case-insensitively. -/
def GetRegion (cloudInfo : CloudInfo) (providerName regionName : String) :
    Except String RegionDetail :=
  let p := strToLower providerName
  let r := strToLower regionName
  match cloudInfo.CSPs.find? (fun e => e.1 == p) with
  | none => Except.error ("cloudType " ++ p ++ " not found")
  | some e =>
    match e.2.Regions.find? (fun rg => strEqFold r rg.1) with
    | some rg => Except.ok rg.2
    | none => Except.error ("nativeRegion " ++ r ++ " not found in Provider " ++ p)

/-- Modelled from the spec: `validate.Struct` on `model.TbVNetReq` (the
model package with its field tags is outside src/). The struct-level
validation registered for the type is `TbVNetReqStructLevelValidation`
(src/unnamed/part_002:66-75), which checks `CheckString` on the name. -/
def validateStructVNetReq (req : TbVNetReq) : Except String Unit :=
  CheckString req.Name

/-- SplitN(s, "-", 2) from the Go strings package: at most two pieces,
split at the first dash. -/
def splitN2dash (s : String) : List String :=
  match s.splitOn "-" with
  | [] => [s]
  | [x] => [x]
  | x :: xs => [x, String.intercalate "-" xs]

/-- First subnet zone of the request that is set and not among the
region's declared zones (the loop of src/unnamed/part_002:108-116). -/
def firstInvalidZone (zones : List String) : List TbSubnetReq → Option String
  | [] => none
  | sn :: rest =>
    if sn.Zone ≠ "" ∧ ContainsZone zones sn.Zone = false then some sn.Zone
    else firstInvalidZone zones rest

/-- ValidateVNetReq from src/unnamed/part_002:77-143. `netValidate` stands
for `netutil.ValidateNetwork` (netutil is outside src/; the spec specifies
it as the CIDR containment check), taken as a parameter at this boundary.
The zone-validation step reads `parts[1]` of the connection name split at
a dash, which panics when the name has no dash. -/
def ValidateVNetReq (cloudInfo : CloudInfo) (netValidate : TbVNetReq → Except String Unit)
    (vNetReq : TbVNetReq) : GoResult Unit :=
  match validateStructVNetReq vNetReq with
  | Except.error e => GoResult.err e
  | Except.ok () =>
    if vNetReq.SubnetInfoList.length = 0 then
      GoResult.err "at least one subnet is required"
    else
      match splitN2dash vNetReq.ConnectionName with
      | [pv, rg] =>
        match GetRegion cloudInfo pv rg with
        | Except.error e => GoResult.err e
        | Except.ok regionDetail =>
          match firstInvalidZone regionDetail.Zones vNetReq.SubnetInfoList with
          | some z => GoResult.err ("invalid zone: " ++ z)
          | none =>
            match netValidate vNetReq with
            | Except.error e => GoResult.err e
            | Except.ok () => GoResult.ok ()
      | _ => GoResult.panicked "index out of range [1] with length 1"

/-! ### CreateVNet (src/unnamed/part_002:256-468) -/

/-- Modelled from the spec: `CheckResource` (its file is outside src/)
reports whether a resource with this id already exists in the namespace,
by looking its canonical key up in the store. -/
def CheckResource (st : KVStore) (nsId resourceType resourceId : String) : Bool :=
  (kvGet st (GenResourceKey nsId resourceType resourceId)).isSome

/-- Oracle for one `CreateVNet` run: the uid stream (`common.GenUid`) and
the broker's response to the VPC create call. -/
structure CreateVNetOracle where
  genUid : Nat → String
  vpcCreate : SpiderCreateVPCRequest → Except String SpiderVPCInfo

/-- Subnet objects pre-populated before the broker call
(src/unnamed/part_002:307-318): the i-th subnet receives the (i+1)-th
generated uid. -/
def prePopulateSubnets (req : TbVNetReq) (genUid : Nat → String) : List TbSubnetInfo :=
  req.SubnetInfoList.enum.map (fun p =>
    { Id := p.2.Name
      Name := p.2.Name
      Uuid := genUid (p.1 + 1)
      IPv4_CIDR := p.2.IPv4_CIDR
      Zone := p.2.Zone
      TagList := p.2.TagList })

/-- Spider request built by CreateVNet (src/unnamed/part_002:337-352): the
subnet names sent to the broker are the local subnet uuids. -/
def buildSpiderVpcRequest (req : TbVNetReq) (uuid : String)
    (subnets : List TbSubnetInfo) : SpiderCreateVPCRequest :=
  { ConnectionName := req.ConnectionName
    ReqInfo :=
      { Name := uuid
        IPv4_CIDR := req.CidrBlock
        SubnetInfoList := subnets.map (fun sn =>
          { Name := sn.Uuid
            IPv4_CIDR := sn.IPv4_CIDR
            Zone := sn.Zone
            TagList := sn.TagList }) } }

/-- One reconciliation step (the inner loop body of
src/unnamed/part_002:388-403): a local subnet is updated from a broker
subnet exactly when its uuid equals the returned NameId. -/
def updateSubnetFromSpider (connName sysId nameId : String)
    (t : TbSubnetInfo) (spsn : SpiderSubnetInfo) : TbSubnetInfo :=
  if t.Uuid = spsn.IId.NameId then
    { t with
      ConnectionName := connName
      CspVNetId := sysId
      CspVNetName := nameId
      Status := NetworkAvailable
      CspSubnetId := spsn.IId.SystemId
      CspSubnetName := spsn.IId.NameId
      KeyValueList := spsn.KeyValueList
      TagList := spsn.TagList
      Zone := spsn.Zone
      IPv4_CIDR := spsn.IPv4_CIDR }
  else t

/-- Reconciliation of the local subnet list against the broker response
(src/unnamed/part_002:386-403): for each broker subnet, every matching
local subnet is updated in place. -/
def reconcileSubnets (connName sysId nameId : String)
    (locals : List TbSubnetInfo) (spList : List SpiderSubnetInfo) : List TbSubnetInfo :=
  spList.foldl (fun acc spsn =>
    acc.map (fun t => updateSubnetFromSpider connName sysId nameId t spsn)) locals

/-- The vNet object as persisted just before the broker call
(src/unnamed/part_002:283-335), status `Configuring`. -/
def vNetInfoBeforeBroker (req : TbVNetReq) (o : CreateVNetOracle) : TbVNetInfo :=
  { Name := req.Name
    Id := req.Name
    Uuid := o.genUid 0
    ConnectionName := req.ConnectionName
    Description := req.Description
    TagList := req.TagList
    SubnetInfoList := prePopulateSubnets req o.genUid
    Status := NetworkOnConfiguring }

/-- CreateVNet from src/unnamed/part_002:256-468. -/
def CreateVNet (st : KVStore) (nsId : String) (vNetReq : TbVNetReq)
    (o : CreateVNetOracle) : Except String TbVNetInfo × KVStore :=
  match CheckString nsId with
  | Except.error e => (Except.error e, st)
  | Except.ok () =>
    match validateStructVNetReq vNetReq with
    | Except.error e => (Except.error e, st)
    | Except.ok () =>
      let vNetKey := GenResourceKey nsId StrVNet vNetReq.Name
      if CheckResource st nsId StrVNet vNetReq.Name then
        (Except.error ("already exists, vNet: " ++ vNetReq.Name), st)
      else
        let info1 := vNetInfoBeforeBroker vNetReq o
        let st1 := kvPut st vNetKey (StoreValue.vnet info1)
        let spReqt := buildSpiderVpcRequest vNetReq (o.genUid 0) info1.SubnetInfoList
        match o.vpcCreate spReqt with
        | Except.error e => (Except.error e, st1)
        | Except.ok spResp =>
          let reconciled := reconcileSubnets info1.ConnectionName spResp.IId.SystemId
            spResp.IId.NameId info1.SubnetInfoList spResp.SubnetInfoList
          let info2 : TbVNetInfo :=
            { info1 with
              CspVNetId := spResp.IId.SystemId
              CspVNetName := spResp.IId.NameId
              CidrBlock := spResp.IPv4_CIDR
              KeyValueList := spResp.KeyValueList
              TagList := spResp.TagList
              SubnetInfoList := reconciled
              Status := if reconciled.length = 0 then NetworkAvailable else NetworkInUse }
          let st2 := kvPut st1 vNetKey (StoreValue.vnet info2)
          let st3 := reconciled.foldl (fun s sn =>
            kvPut s (GenChildResourceKey nsId StrSubnet info2.Id sn.Id)
              (StoreValue.subnet sn)) st2
          match kvGet st3 vNetKey with
          | none => (Except.error ("does not exist, vNet: " ++ info2.Id), st3)
          | some (StoreValue.vnet v) => (Except.ok v, st3)
          | some _ => (Except.error "failed to unmarshal the vNet", st3)

/-! ### DeleteVNet and DeregisterVNet (src/unnamed/part_002:564-710 and
896-1042) -/

/-- ParseBool from the Go strconv package, as used on the broker's Result
string. -/
def parseBool (s : String) : Option Bool :=
  if s = "1" ∨ s = "t" ∨ s = "T" ∨ s = "TRUE" ∨ s = "true" ∨ s = "True" then some true
  else if s = "0" ∨ s = "f" ∨ s = "F" ∨ s = "FALSE" ∨ s = "false" ∨ s = "False" then
    some false
  else none

/-- Oracle for one `DeleteVNet`/`DeregisterVNet` run: the per-subnet
broker outcome used by the subnet deletions, and the broker response to
the vNet-level delete call (its `Result` string on success). -/
structure DeleteVNetOracle where
  subnetBroker : String → Except String Unit
  vpcDelete : Except String String

/-- Modelled from the spec: `DeleteSubnet` (its source file is outside
src/). Per §4.5 it persists `Deleting`, calls the broker, on success
deletes the subnet key, and on failure leaves `ErrorOnDeleting`. -/
def DeleteSubnet (st : KVStore) (nsId vNetId : String) (sn : TbSubnetInfo)
    (broker : String → Except String Unit) : Except String SimpleMsg × KVStore :=
  let key := GenChildResourceKey nsId StrSubnet vNetId sn.Id
  let st1 := kvPut st key (StoreValue.subnet { sn with Status := NetworkOnDeleting })
  match broker sn.Id with
  | Except.ok () =>
    (Except.ok { Message := "the subnet (" ++ sn.Id ++ ") has been deleted" },
      kvDelete st1 key)
  | Except.error e =>
    (Except.error e,
      kvPut st1 key (StoreValue.subnet { sn with Status := NetworkErrorOnDeleting }))

/-- The subnet-deletion loop of DeleteVNet (src/unnamed/part_002:612-625):
unmarshal each stored subnet and delete it, stopping at the first error. -/
def deleteSubnetsLoop (nsId vNetId : String) (broker : String → Except String Unit) :
    KVStore → List (String × StoreValue) → Except String Unit × KVStore
  | st, [] => (Except.ok (), st)
  | st, (_, v) :: rest =>
    match v with
    | StoreValue.subnet sn =>
      match DeleteSubnet st nsId vNetId sn broker with
      | (Except.ok _, st1) => deleteSubnetsLoop nsId vNetId broker st1 rest
      | (Except.error e, st1) => (Except.error e, st1)
    | _ => (Except.error "failed to unmarshal the subnet", st)

/-- DeleteVNet from src/unnamed/part_002:564-710. -/
def DeleteVNet (st : KVStore) (nsId vNetId withSubnets : String)
    (o : DeleteVNetOracle) : Except String SimpleMsg × KVStore :=
  match CheckString nsId with
  | Except.error e => (Except.error e, st)
  | Except.ok () =>
    match CheckString vNetId with
    | Except.error e => (Except.error e, st)
    | Except.ok () =>
      if withSubnets ≠ "" ∧ withSubnets ≠ "true" ∧ withSubnets ≠ "false" then
        (Except.error ("invalid option, withSubnets (" ++ withSubnets ++ ")"), st)
      else
        let ws := if withSubnets = "" then "false" else withSubnets
        let vNetKey := GenResourceKey nsId StrVNet vNetId
        let subnetsKv := kvGetKvList st (vNetKey ++ "/subnet")
        if ws = "false" ∧ 0 < subnetsKv.length then
          (Except.error ("the vNet (" ++ vNetId ++ ") is in-use, may have subnets"), st)
        else
          match deleteSubnetsLoop nsId vNetId o.subnetBroker st subnetsKv with
          | (Except.error e, st1) => (Except.error e, st1)
          | (Except.ok (), st1) =>
            match kvGet st1 vNetKey with
            | none => (Except.error ("does not exist, vNet: " ++ vNetId), st1)
            | some (StoreValue.vnet v) =>
              let st2 := kvPut st1 vNetKey
                (StoreValue.vnet { v with Status := NetworkOnDeleting })
              match o.vpcDelete with
              | Except.error e => (Except.error e, st2)
              | Except.ok result =>
                match parseBool result with
                | none => (Except.error ("invalid syntax: " ++ result), st2)
                | some false =>
                  (Except.error ("failed to delete the vNet (" ++ vNetId ++ ")"), st2)
                | some true =>
                  (Except.ok { Message := "the vNet (" ++ vNetId ++ ") has been deleted" },
                    kvDelete st2 vNetKey)
            | some _ => (Except.error "failed to unmarshal the vNet", st1)

/-- DeregisterVNet from src/unnamed/part_002:896-1042 (same skeleton as
DeleteVNet; the broker call goes to the `regvpc` endpoint and the final
message differs). -/
def DeregisterVNet (st : KVStore) (nsId vNetId withSubnets : String)
    (o : DeleteVNetOracle) : Except String SimpleMsg × KVStore :=
  match CheckString nsId with
  | Except.error e => (Except.error e, st)
  | Except.ok () =>
    match CheckString vNetId with
    | Except.error e => (Except.error e, st)
    | Except.ok () =>
      if withSubnets ≠ "" ∧ withSubnets ≠ "true" ∧ withSubnets ≠ "false" then
        (Except.error ("invalid option, withSubnets (" ++ withSubnets ++ ")"), st)
      else
        let ws := if withSubnets = "" then "false" else withSubnets
        let vNetKey := GenResourceKey nsId StrVNet vNetId
        let subnetsKv := kvGetKvList st (vNetKey ++ "/subnet")
        if ws = "false" ∧ 0 < subnetsKv.length then
          (Except.error ("the vNet (" ++ vNetId ++ ") is in-use, may have subnets"), st)
        else
          match deleteSubnetsLoop nsId vNetId o.subnetBroker st subnetsKv with
          | (Except.error e, st1) => (Except.error e, st1)
          | (Except.ok (), st1) =>
            match kvGet st1 vNetKey with
            | none => (Except.error ("does not exist, vNet: " ++ vNetId), st1)
            | some (StoreValue.vnet v) =>
              let st2 := kvPut st1 vNetKey
                (StoreValue.vnet { v with Status := NetworkOnDeleting })
              match o.vpcDelete with
              | Except.error e => (Except.error e, st2)
              | Except.ok result =>
                match parseBool result with
                | none => (Except.error ("invalid syntax: " ++ result), st2)
                | some false =>
                  (Except.error ("failed to deregister the vNet (" ++ vNetId ++ ")"), st2)
                | some true =>
                  (Except.ok { Message := "the vnet (" ++ vNetId ++ ") has been deregistered" },
                    kvDelete st2 vNetKey)
            | some _ => (Except.error "failed to unmarshal the vNet", st1)

/-! ### Claims C4, C6, C7 -/

/-- C6: creating a vNet whose id already exists in the namespace returns
the already-exists error and leaves the KV store unchanged. -/
theorem claim_C6 (st : KVStore) (nsId : String) (req : TbVNetReq) (o : CreateVNetOracle)
    (v : StoreValue)
    (h1 : CheckString nsId = Except.ok ())
    (h2 : CheckString req.Name = Except.ok ())
    (h3 : kvGet st (GenResourceKey nsId StrVNet req.Name) = some v) :
    CreateVNet st nsId req o =
      (Except.error ("already exists, vNet: " ++ req.Name), st) := by
  have hex : CheckResource st nsId StrVNet req.Name = true := by
    unfold CheckResource
    rw [h3]
    rfl
  unfold CreateVNet validateStructVNetReq
  rw [h1, h2, hex]
  simp

/-- C6, witness: a second creation of "vnet1" in namespace "default". -/
theorem claim_C6_witness :
    CreateVNet [(GenResourceKey "default" StrVNet "vnet1", StoreValue.vnet {})] "default"
      { Name := "vnet1" }
      { genUid := fun _ => "u", vpcCreate := fun _ => Except.error "e" } =
      (Except.error ("already exists, vNet: " ++ "vnet1"),
        [(GenResourceKey "default" StrVNet "vnet1", StoreValue.vnet {})]) :=
  claim_C6 _ _ _ _ (StoreValue.vnet {}) (by decide) (by decide) (by decide)

/-- C4: deleting a vNet that still has subnet keys with `withSubnets`
"false" (or empty) returns the in-use conflict error and leaves the KV
store unchanged. -/
theorem claim_C4 (st : KVStore) (nsId vNetId withSubnets : String) (o : DeleteVNetOracle)
    (h1 : CheckString nsId = Except.ok ())
    (h2 : CheckString vNetId = Except.ok ())
    (hws : withSubnets = "false" ∨ withSubnets = "")
    (hsub : kvGetKvList st (GenResourceKey nsId StrVNet vNetId ++ "/subnet") ≠ []) :
    DeleteVNet st nsId vNetId withSubnets o =
      (Except.error ("the vNet (" ++ vNetId ++ ") is in-use, may have subnets"), st) := by
  have hlen : 0 < (kvGetKvList st (GenResourceKey nsId StrVNet vNetId ++ "/subnet")).length :=
    List.length_pos.mpr hsub
  unfold DeleteVNet
  rw [h1, h2]
  rcases hws with h | h <;> subst h
  · rw [if_neg (by simp)]
    simp only [if_neg (by decide : ¬("false" : String) = "")]
    rw [if_pos (⟨by simp, hlen⟩ : _ ∧ _)]
  · rw [if_neg (by simp)]
    simp only [if_pos (rfl : ("" : String) = "")]
    rw [if_pos (⟨by simp, hlen⟩ : _ ∧ _)]

/-- C4, witness: a vNet with one stored subnet and an empty option. -/
theorem claim_C4_witness :
    DeleteVNet
      [(GenResourceKey "default" StrVNet "vnet1", StoreValue.vnet {}),
        (GenChildResourceKey "default" StrSubnet "vnet1" "sn1", StoreValue.subnet {})]
      "default" "vnet1" ""
      { subnetBroker := fun _ => Except.ok (), vpcDelete := Except.ok "true" } =
      (Except.error ("the vNet (" ++ "vnet1" ++ ") is in-use, may have subnets"),
        [(GenResourceKey "default" StrVNet "vnet1", StoreValue.vnet {}),
          (GenChildResourceKey "default" StrSubnet "vnet1" "sn1", StoreValue.subnet {})]) :=
  claim_C4 _ _ _ _ _ (by decide) (by decide) (Or.inr rfl) (by decide)

/-- C7: a vNet creation request with an empty subnet list fails validation
with the "at least one subnet is required" error; `ValidateVNetReq` is a
pure check, so no broker call and no KV write can have happened. -/
theorem claim_C7 (cloudInfo : CloudInfo) (netValidate : TbVNetReq → Except String Unit)
    (req : TbVNetReq)
    (hname : CheckString req.Name = Except.ok ())
    (hempty : req.SubnetInfoList = []) :
    ValidateVNetReq cloudInfo netValidate req =
      GoResult.err "at least one subnet is required" := by
  unfold ValidateVNetReq validateStructVNetReq
  rw [hname, hempty]
  simp

/-- C7, witness: a request named "vnet1" with no subnets. -/
theorem claim_C7_witness :
    ValidateVNetReq {} (fun _ => Except.ok ()) { Name := "vnet1" } =
      GoResult.err "at least one subnet is required" :=
  claim_C7 _ _ _ (by decide) rfl

/-! ### Claim C9: uuid-based reconciliation -/

/-- Reconciliation preserves the uuid of a local subnet. -/
theorem updateSubnet_uuid (connName sysId nameId : String) (t : TbSubnetInfo)
    (e : SpiderSubnetInfo) :
    (updateSubnetFromSpider connName sysId nameId t e).Uuid = t.Uuid := by
  unfold updateSubnetFromSpider
  split <;> rfl

/-- A reconciliation step with a non-matching NameId changes nothing. -/
theorem updateSubnet_not_match (connName sysId nameId : String) (t : TbSubnetInfo)
    (e : SpiderSubnetInfo) (h : t.Uuid ≠ e.IId.NameId) :
    updateSubnetFromSpider connName sysId nameId t e = t := by
  unfold updateSubnetFromSpider
  rw [if_neg h]

/-- Two reconciliation steps with distinct NameIds (or equal broker
subnets) commute on any local subnet. -/
theorem updateSubnet_comm (connName sysId nameId : String) (t : TbSubnetInfo)
    (e1 e2 : SpiderSubnetInfo) (h : e1.IId.NameId ≠ e2.IId.NameId ∨ e1 = e2) :
    updateSubnetFromSpider connName sysId nameId
        (updateSubnetFromSpider connName sysId nameId t e1) e2 =
      updateSubnetFromSpider connName sysId nameId
        (updateSubnetFromSpider connName sysId nameId t e2) e1 := by
  rcases h with h | rfl
  · by_cases h1 : t.Uuid = e1.IId.NameId <;> by_cases h2 : t.Uuid = e2.IId.NameId
    · exact absurd (h1.symm.trans h2) h
    · rw [updateSubnet_not_match connName sysId nameId _ e2
        (by rw [updateSubnet_uuid]; exact h2)]
      rw [updateSubnet_not_match connName sysId nameId t e2 h2]
    · rw [updateSubnet_not_match connName sysId nameId t e1 h1]
      rw [updateSubnet_not_match connName sysId nameId _ e1
        (by rw [updateSubnet_uuid]; exact h1)]
    · rw [updateSubnet_not_match connName sysId nameId t e1 h1,
        updateSubnet_not_match connName sysId nameId t e2 h2,
        updateSubnet_not_match connName sysId nameId t e1 h1]
  · rfl

/-- Reconciliation is invariant under permutation of the broker's subnet
list when the returned NameIds are pairwise distinct. -/
theorem reconcileSubnets_perm (connName sysId nameId : String)
    (locals : List TbSubnetInfo) (sp sp2 : List SpiderSubnetInfo)
    (hnd : (sp.map (fun e => e.IId.NameId)).Nodup) (hp : sp.Perm sp2) :
    reconcileSubnets connName sysId nameId locals sp =
      reconcileSubnets connName sysId nameId locals sp2 := by
  unfold reconcileSubnets
  refine hp.foldl_eq' ?_ locals
  intro x hx y hy z
  rw [List.map_map, List.map_map]
  refine List.map_congr_left ?_
  intro t _
  simp only [Function.comp]
  by_cases hxy : x = y
  · subst hxy
    exact updateSubnet_comm connName sysId nameId t x x (Or.inr rfl)
  · refine updateSubnet_comm connName sysId nameId t x y (Or.inl ?_)
    intro hf
    exact hxy (List.inj_on_of_nodup_map hnd hx hy hf)

/-- C9: local subnets carry their uuids before the broker call and the
requested broker subnet names are exactly those uuids; reconciliation
matches by uuid = NameId, so any two broker responses that are
permutations of each other (with pairwise-distinct NameIds) reconcile to
the same subnet list. -/
theorem claim_C9 :
    (∀ (req : TbVNetReq) (g : Nat → String),
      (prePopulateSubnets req g).map (fun sn => sn.Uuid) =
        (List.range req.SubnetInfoList.length).map (fun i => g (i + 1))) ∧
    (∀ (req : TbVNetReq) (uuid : String) (subnets : List TbSubnetInfo),
      (buildSpiderVpcRequest req uuid subnets).ReqInfo.SubnetInfoList.map (fun e => e.Name) =
        subnets.map (fun sn => sn.Uuid)) ∧
    (∀ (connName sysId nameId : String) (locals : List TbSubnetInfo)
      (sp sp2 : List SpiderSubnetInfo),
      (sp.map (fun e => e.IId.NameId)).Nodup → sp.Perm sp2 →
      reconcileSubnets connName sysId nameId locals sp =
        reconcileSubnets connName sysId nameId locals sp2) := by
  refine ⟨?_, ?_, ?_⟩
  · intro req g
    unfold prePopulateSubnets
    rw [List.map_map, List.range_eq_range']
    have h : ∀ (l : List TbSubnetReq) (n : Nat),
        (List.enumFrom n l).map (fun p => g (p.1 + 1)) =
          (List.range' n l.length).map (fun i => g (i + 1)) := by
      intro l
      induction l with
      | nil => intro n; rfl
      | cons a t ih =>
        intro n
        simp only [List.enumFrom, List.map_cons, List.length_cons, List.range',
          ih (n + 1)]
    exact h req.SubnetInfoList 0
  · intro req uuid subnets
    unfold buildSpiderVpcRequest
    rw [List.map_map]
    rfl
  · exact reconcileSubnets_perm

/-- C9, witness: a two-subnet response and its swap reconcile equally. -/
theorem claim_C9_witness :
    reconcileSubnets "cn" "sys" "nm"
      [{ Uuid := "u1" }, { Uuid := "u2" }]
      [{ IId := { NameId := "u1", SystemId := "s1" } },
        { IId := { NameId := "u2", SystemId := "s2" } }]
      =
    reconcileSubnets "cn" "sys" "nm"
      [{ Uuid := "u1" }, { Uuid := "u2" }]
      [{ IId := { NameId := "u2", SystemId := "s2" } },
        { IId := { NameId := "u1", SystemId := "s1" } }] :=
  claim_C9.2.2 "cn" "sys" "nm" _ _ _ (by decide) (by decide)

/-! ### Claim C5: cascading delete -/

/-- Extensionality for strings via their character lists. -/
theorem strext (a b : String) (h : a.data = b.data) : a = b := by
  cases a
  cases b
  exact congrArg String.mk h

/-- The canonical subnet key is the vNet key extended by the subnet
segment. -/
theorem genChildKey_eq (nsId parentId resourceId : String) :
    GenChildResourceKey nsId StrSubnet parentId resourceId =
      GenResourceKey nsId StrVNet parentId ++ "/subnet/" ++ resourceId := by
  unfold GenChildResourceKey GenResourceKey StrSubnet StrVNet
  rw [if_pos rfl, if_pos (by simp)]
  apply strext
  simp [String.data_append, List.append_assoc]

/-- Length distributes over string append. -/
theorem strLength_append (a b : String) : (a ++ b).length = a.length + b.length := by
  show (a ++ b).data.length = a.data.length + b.data.length
  rw [String.data_append, List.length_append]

/-- The vNet key itself is not one of its subnet keys. -/
theorem vNetKey_ne_subnetKey (nsId vNetId snId : String) :
    GenResourceKey nsId StrVNet vNetId ≠ GenChildResourceKey nsId StrSubnet vNetId snId := by
  intro h
  have h2 := congrArg String.length h
  rw [genChildKey_eq, strLength_append, strLength_append] at h2
  have h3 : ("/subnet/" : String).length = 8 := rfl
  omega

/-- Entry predicate: a stored entry is a subnet of the given vNet at its
canonical key. -/
def subnetEntryOk (nsId vNetId : String) (e : String × StoreValue) : Bool :=
  match e.2 with
  | StoreValue.subnet sn => e.1 == GenChildResourceKey nsId StrSubnet vNetId sn.Id
  | _ => false

/-- Entry predicate: an entry under the vNet key is either the vNet entry
itself or lies under the subnet segment. -/
def underVNetKeyOk (vNetKey : String) (e : String × StoreValue) : Bool :=
  !(strHasPfx vNetKey e.1) || (e.1 == vNetKey) || strHasPfx (vNetKey ++ "/subnet") e.1

/-- The subnet-deletion loop, on well-formed subnet entries with a broker
accepting every deletion, deletes exactly the listed keys. -/
theorem deleteSubnetsLoop_ok (nsId vNetId : String)
    (broker : String → Except String Unit) (hb : ∀ id, broker id = Except.ok ())
    (l : List (String × StoreValue)) (st : KVStore)
    (hl : ∀ e ∈ l, subnetEntryOk nsId vNetId e = true) :
    deleteSubnetsLoop nsId vNetId broker st l =
      (Except.ok (), kvDeleteAll st (l.map (fun e => e.1))) := by
  induction l generalizing st with
  | nil => rfl
  | cons e rest ih =>
    obtain ⟨k, v⟩ := e
    have he := hl (k, v) (List.mem_cons_self _ _)
    unfold subnetEntryOk at he
    cases v with
    | subnet sn =>
      simp only at he
      have hk : k = GenChildResourceKey nsId StrSubnet vNetId sn.Id := eq_of_beq he
      simp only [deleteSubnetsLoop, DeleteSubnet, hb sn.Id]
      rw [kvDelete_kvPut]
      rw [ih _ (fun e2 he2 => hl e2 (List.mem_cons_of_mem _ he2))]
      rw [List.map_cons]
      unfold kvDeleteAll
      rw [List.foldl_cons, hk]
    | vnet v0 => simp at he
    | conn c0 => simp at he

/-- C5: deleting a vNet that has well-formed subnet entries with
`withSubnets="true"` and a broker accepting all deletions succeeds with
the documented message, and afterwards no key remains under the vNet
key. -/
theorem claim_C5 (st : KVStore) (nsId vNetId : String) (o : DeleteVNetOracle)
    (v : TbVNetInfo)
    (h1 : CheckString nsId = Except.ok ())
    (h2 : CheckString vNetId = Except.ok ())
    (hv : kvGet st (GenResourceKey nsId StrVNet vNetId) = some (StoreValue.vnet v))
    (hsub : ∀ e ∈ kvGetKvList st (GenResourceKey nsId StrVNet vNetId ++ "/subnet"),
      subnetEntryOk nsId vNetId e = true)
    (hb : ∀ id, o.subnetBroker id = Except.ok ())
    (hd : o.vpcDelete = Except.ok "true")
    (hcover : ∀ e ∈ st, underVNetKeyOk (GenResourceKey nsId StrVNet vNetId) e = true) :
    (DeleteVNet st nsId vNetId "true" o).1 =
      Except.ok { Message := "the vNet (" ++ vNetId ++ ") has been deleted" } ∧
    kvGetKvList (DeleteVNet st nsId vNetId "true" o).2
      (GenResourceKey nsId StrVNet vNetId) = [] := by
  set vNetKey := GenResourceKey nsId StrVNet vNetId with hkey
  set subnetsKv := kvGetKvList st (vNetKey ++ "/subnet") with hsubs
  have hnotin : vNetKey ∉ subnetsKv.map (fun e => e.1) := by
    intro hmem
    obtain ⟨e, hel, hek⟩ := List.mem_map.mp hmem
    have he2 := hsub e hel
    unfold subnetEntryOk at he2
    cases hv2 : e.2 with
    | subnet sn =>
      rw [hv2] at he2
      simp only at he2
      exact vNetKey_ne_subnetKey nsId vNetId sn.Id (hek.symm.trans (eq_of_beq he2))
    | vnet v0 => rw [hv2] at he2; simp at he2
    | conn c0 => rw [hv2] at he2; simp at he2
  have hrun : DeleteVNet st nsId vNetId "true" o =
      (Except.ok { Message := "the vNet (" ++ vNetId ++ ") has been deleted" },
        kvDelete (kvDeleteAll st (subnetsKv.map (fun e => e.1))) vNetKey) := by
    unfold DeleteVNet
    rw [h1, h2]
    rw [if_neg (by simp)]
    simp only [if_neg (by decide : ¬("true" : String) = "")]
    rw [if_neg (by simp)]
    rw [deleteSubnetsLoop_ok nsId vNetId o.subnetBroker hb subnetsKv st hsub]
    simp only
    rw [kvGet_kvDeleteAll_not_mem _ _ _ hnotin, ← hkey, hv]
    simp only
    rw [hd]
    simp only
    rw [show parseBool "true" = some true from rfl]
    simp only
    rw [kvDelete_kvPut]
  constructor
  · rw [hrun]
  · rw [hrun]
    simp only
    unfold kvGetKvList
    rw [List.filter_eq_nil_iff]
    intro e he
    intro hpfx
    have he1 : e ∈ kvDeleteAll st (subnetsKv.map (fun e2 => e2.1)) ∧ e.1 ≠ vNetKey :=
      (mem_kvDelete _ _ _).mp he
    have he2 : e ∈ st ∧ e.1 ∉ subnetsKv.map (fun e2 => e2.1) :=
      (mem_kvDeleteAll _ _ _).mp he1.1
    have hc := hcover e he2.1
    unfold underVNetKeyOk at hc
    rw [hpfx] at hc
    simp only [Bool.not_true, Bool.false_or, Bool.or_eq_true] at hc
    rcases hc with hc | hc
    · exact he1.2 (eq_of_beq hc)
    · have hesub : e ∈ subnetsKv := by
        rw [hsubs]
        unfold kvGetKvList
        exact List.mem_filter.mpr ⟨he2.1, hc⟩
      exact he2.2 (List.mem_map.mpr ⟨e, hesub, rfl⟩)

/-- C5, witness: a vNet with two stored subnets, cascading delete. -/
theorem claim_C5_witness :
    (DeleteVNet
      [(GenResourceKey "default" StrVNet "vnet1", StoreValue.vnet { Id := "vnet1" }),
        (GenChildResourceKey "default" StrSubnet "vnet1" "sn1",
          StoreValue.subnet { Id := "sn1" }),
        (GenChildResourceKey "default" StrSubnet "vnet1" "sn2",
          StoreValue.subnet { Id := "sn2" })]
      "default" "vnet1" "true"
      { subnetBroker := fun _ => Except.ok (), vpcDelete := Except.ok "true" }).1 =
      Except.ok { Message := "the vNet (" ++ "vnet1" ++ ") has been deleted" } ∧
    kvGetKvList
      (DeleteVNet
        [(GenResourceKey "default" StrVNet "vnet1", StoreValue.vnet { Id := "vnet1" }),
          (GenChildResourceKey "default" StrSubnet "vnet1" "sn1",
            StoreValue.subnet { Id := "sn1" }),
          (GenChildResourceKey "default" StrSubnet "vnet1" "sn2",
            StoreValue.subnet { Id := "sn2" })]
        "default" "vnet1" "true"
        { subnetBroker := fun _ => Except.ok (), vpcDelete := Except.ok "true" }).2
      (GenResourceKey "default" StrVNet "vnet1") = [] :=
  claim_C5 _ "default" "vnet1" _ { Id := "vnet1" }
    (by decide) (by decide) (by decide) (by decide) (fun _ => rfl) rfl (by decide)

/-! ### Claim C1: status transitions around broker calls -/

/-- On well-formed subnet entries with an accepting subnet broker, a
cascading DeleteVNet whose vNet-level broker call fails returns that error
with the store left at the intent status `Deleting` (no `ErrorOnDeleting`
transition exists in the code). -/
theorem deleteVNet_broker_err (st : KVStore) (nsId vNetId : String) (o : DeleteVNetOracle)
    (v : TbVNetInfo) (e : String)
    (h1 : CheckString nsId = Except.ok ())
    (h2 : CheckString vNetId = Except.ok ())
    (hv : kvGet st (GenResourceKey nsId StrVNet vNetId) = some (StoreValue.vnet v))
    (hsub : ∀ e2 ∈ kvGetKvList st (GenResourceKey nsId StrVNet vNetId ++ "/subnet"),
      subnetEntryOk nsId vNetId e2 = true)
    (hb : ∀ id, o.subnetBroker id = Except.ok ())
    (hbk : o.vpcDelete = Except.error e) :
    DeleteVNet st nsId vNetId "true" o =
      (Except.error e,
        kvPut (kvDeleteAll st
            ((kvGetKvList st (GenResourceKey nsId StrVNet vNetId ++ "/subnet")).map
              (fun e2 => e2.1)))
          (GenResourceKey nsId StrVNet vNetId)
          (StoreValue.vnet { v with Status := NetworkOnDeleting })) := by
  set vNetKey := GenResourceKey nsId StrVNet vNetId with hkey
  set subnetsKv := kvGetKvList st (vNetKey ++ "/subnet") with hsubs
  have hnotin : vNetKey ∉ subnetsKv.map (fun e2 => e2.1) := by
    intro hmem
    obtain ⟨e2, hel, hek⟩ := List.mem_map.mp hmem
    have he2 := hsub e2 hel
    unfold subnetEntryOk at he2
    cases hv2 : e2.2 with
    | subnet sn =>
      rw [hv2] at he2
      simp only at he2
      exact vNetKey_ne_subnetKey nsId vNetId sn.Id (hek.symm.trans (eq_of_beq he2))
    | vnet v0 => rw [hv2] at he2; simp at he2
    | conn c0 => rw [hv2] at he2; simp at he2
  unfold DeleteVNet
  rw [h1, h2]
  rw [if_neg (by simp)]
  simp only [if_neg (by decide : ¬("true" : String) = "")]
  rw [if_neg (by simp)]
  rw [deleteSubnetsLoop_ok nsId vNetId o.subnetBroker hb subnetsKv st hsub]
  simp only
  rw [kvGet_kvDeleteAll_not_mem _ _ _ hnotin, ← hkey, hv]
  simp only
  rw [hbk]

/-- Same as `deleteVNet_broker_err` for DeregisterVNet. -/
theorem deregisterVNet_broker_err (st : KVStore) (nsId vNetId : String)
    (o : DeleteVNetOracle) (v : TbVNetInfo) (e : String)
    (h1 : CheckString nsId = Except.ok ())
    (h2 : CheckString vNetId = Except.ok ())
    (hv : kvGet st (GenResourceKey nsId StrVNet vNetId) = some (StoreValue.vnet v))
    (hsub : ∀ e2 ∈ kvGetKvList st (GenResourceKey nsId StrVNet vNetId ++ "/subnet"),
      subnetEntryOk nsId vNetId e2 = true)
    (hb : ∀ id, o.subnetBroker id = Except.ok ())
    (hbk : o.vpcDelete = Except.error e) :
    DeregisterVNet st nsId vNetId "true" o =
      (Except.error e,
        kvPut (kvDeleteAll st
            ((kvGetKvList st (GenResourceKey nsId StrVNet vNetId ++ "/subnet")).map
              (fun e2 => e2.1)))
          (GenResourceKey nsId StrVNet vNetId)
          (StoreValue.vnet { v with Status := NetworkOnDeleting })) := by
  set vNetKey := GenResourceKey nsId StrVNet vNetId with hkey
  set subnetsKv := kvGetKvList st (vNetKey ++ "/subnet") with hsubs
  have hnotin : vNetKey ∉ subnetsKv.map (fun e2 => e2.1) := by
    intro hmem
    obtain ⟨e2, hel, hek⟩ := List.mem_map.mp hmem
    have he2 := hsub e2 hel
    unfold subnetEntryOk at he2
    cases hv2 : e2.2 with
    | subnet sn =>
      rw [hv2] at he2
      simp only at he2
      exact vNetKey_ne_subnetKey nsId vNetId sn.Id (hek.symm.trans (eq_of_beq he2))
    | vnet v0 => rw [hv2] at he2; simp at he2
    | conn c0 => rw [hv2] at he2; simp at he2
  unfold DeregisterVNet
  rw [h1, h2]
  rw [if_neg (by simp)]
  simp only [if_neg (by decide : ¬("true" : String) = "")]
  rw [if_neg (by simp)]
  rw [deleteSubnetsLoop_ok nsId vNetId o.subnetBroker hb subnetsKv st hsub]
  simp only
  rw [kvGet_kvDeleteAll_not_mem _ _ _ hnotin, ← hkey, hv]
  simp only
  rw [hbk]

/-- C1, counterexample: the claim requires the stored status to become
`ErrorOnConfiguring` when the broker call of CreateVNet fails; in the code
the error branch returns immediately and the stored status stays
`Configuring`. -/
theorem claim_C1_counterexample :
    (CreateVNet [] "default" { Name := "vnet1", ConnectionName := "aws-us-east-1" }
      { genUid := fun _ => "u", vpcCreate := fun _ => Except.error "spider down" }).1 =
      Except.error "spider down" ∧
    kvGet (CreateVNet [] "default" { Name := "vnet1", ConnectionName := "aws-us-east-1" }
        { genUid := fun _ => "u", vpcCreate := fun _ => Except.error "spider down" }).2
      (GenResourceKey "default" StrVNet "vnet1") =
      some (StoreValue.vnet (vNetInfoBeforeBroker
        { Name := "vnet1", ConnectionName := "aws-us-east-1" }
        { genUid := fun _ => "u", vpcCreate := fun _ => Except.error "spider down" })) ∧
    (vNetInfoBeforeBroker { Name := "vnet1", ConnectionName := "aws-us-east-1" }
      { genUid := fun _ => "u", vpcCreate := fun _ => Except.error "spider down" }).Status =
      NetworkOnConfiguring ∧
    NetworkOnConfiguring ≠ NetworkErrorOnConfiguring := by
  refine ⟨by decide, by decide, rfl, by decide⟩

/-- C1, amended claim: for CreateVNet, DeleteVNet and DeregisterVNet the
stored status transitions to the intent state (`Configuring` resp.
`Deleting`) before the broker call, and when the broker call fails the
operation returns the broker error with the stored status left at the
intent state — no `ErrorOnConfiguring`/`ErrorOnDeleting` transition is
performed. -/
theorem claim_C1_amended :
    (∀ (st : KVStore) (nsId : String) (req : TbVNetReq) (o : CreateVNetOracle) (e : String),
      CheckString nsId = Except.ok () →
      CheckString req.Name = Except.ok () →
      kvGet st (GenResourceKey nsId StrVNet req.Name) = none →
      o.vpcCreate (buildSpiderVpcRequest req (o.genUid 0)
        (vNetInfoBeforeBroker req o).SubnetInfoList) = Except.error e →
      CreateVNet st nsId req o =
        (Except.error e, kvPut st (GenResourceKey nsId StrVNet req.Name)
          (StoreValue.vnet (vNetInfoBeforeBroker req o))) ∧
      kvGet (CreateVNet st nsId req o).2 (GenResourceKey nsId StrVNet req.Name) =
        some (StoreValue.vnet (vNetInfoBeforeBroker req o)) ∧
      (vNetInfoBeforeBroker req o).Status = NetworkOnConfiguring) ∧
    (∀ (st : KVStore) (nsId vNetId : String) (o : DeleteVNetOracle) (v : TbVNetInfo)
      (e : String),
      CheckString nsId = Except.ok () →
      CheckString vNetId = Except.ok () →
      kvGet st (GenResourceKey nsId StrVNet vNetId) = some (StoreValue.vnet v) →
      (∀ e2 ∈ kvGetKvList st (GenResourceKey nsId StrVNet vNetId ++ "/subnet"),
        subnetEntryOk nsId vNetId e2 = true) →
      (∀ id, o.subnetBroker id = Except.ok ()) →
      o.vpcDelete = Except.error e →
      (DeleteVNet st nsId vNetId "true" o).1 = Except.error e ∧
      kvGet (DeleteVNet st nsId vNetId "true" o).2 (GenResourceKey nsId StrVNet vNetId) =
        some (StoreValue.vnet { v with Status := NetworkOnDeleting }) ∧
      NetworkOnDeleting ≠ NetworkErrorOnDeleting) ∧
    (∀ (st : KVStore) (nsId vNetId : String) (o : DeleteVNetOracle) (v : TbVNetInfo)
      (e : String),
      CheckString nsId = Except.ok () →
      CheckString vNetId = Except.ok () →
      kvGet st (GenResourceKey nsId StrVNet vNetId) = some (StoreValue.vnet v) →
      (∀ e2 ∈ kvGetKvList st (GenResourceKey nsId StrVNet vNetId ++ "/subnet"),
        subnetEntryOk nsId vNetId e2 = true) →
      (∀ id, o.subnetBroker id = Except.ok ()) →
      o.vpcDelete = Except.error e →
      (DeregisterVNet st nsId vNetId "true" o).1 = Except.error e ∧
      kvGet (DeregisterVNet st nsId vNetId "true" o).2 (GenResourceKey nsId StrVNet vNetId) =
        some (StoreValue.vnet { v with Status := NetworkOnDeleting })) := by
  refine ⟨?_, ?_, ?_⟩
  · intro st nsId req o e h1 h2 h3 hbk
    have hex : CheckResource st nsId StrVNet req.Name = false := by
      unfold CheckResource
      rw [h3]
      rfl
    have hrun : CreateVNet st nsId req o =
        (Except.error e, kvPut st (GenResourceKey nsId StrVNet req.Name)
          (StoreValue.vnet (vNetInfoBeforeBroker req o))) := by
      unfold CreateVNet validateStructVNetReq
      rw [h1, h2]
      simp only [hex, Bool.false_eq_true, if_false]
      rw [hbk]
    refine ⟨hrun, ?_, rfl⟩
    rw [hrun]
    exact kvGet_kvPut_self st _ _
  · intro st nsId vNetId o v e h1 h2 hv hsub hb hbk
    have hrun := deleteVNet_broker_err st nsId vNetId o v e h1 h2 hv hsub hb hbk
    refine ⟨by rw [hrun], ?_, by decide⟩
    rw [hrun]
    exact kvGet_kvPut_self _ _ _
  · intro st nsId vNetId o v e h1 h2 hv hsub hb hbk
    have hrun := deregisterVNet_broker_err st nsId vNetId o v e h1 h2 hv hsub hb hbk
    refine ⟨by rw [hrun], ?_⟩
    rw [hrun]
    exact kvGet_kvPut_self _ _ _

/-- C1, witness: the amended claim's CreateVNet part at a concrete run
with a failing broker. -/
theorem claim_C1_amended_witness :
    CreateVNet [] "default" { Name := "vnet1" }
      { genUid := fun _ => "u", vpcCreate := fun _ => Except.error "down" } =
      (Except.error "down", kvPut [] (GenResourceKey "default" StrVNet "vnet1")
        (StoreValue.vnet (vNetInfoBeforeBroker { Name := "vnet1" }
          { genUid := fun _ => "u", vpcCreate := fun _ => Except.error "down" }))) :=
  (claim_C1_amended.1 [] "default" { Name := "vnet1" }
    { genUid := fun _ => "u", vpcCreate := fun _ => Except.error "down" } "down"
    (by decide) (by decide) rfl rfl).1

/-! ### Credential registration and the connection registry
(src/src/core/common/utility.go:517-861) -/

/-- Opaque RSA private key handle stored in the in-memory key map. -/
abbrev PrivKey := String

/-- In-memory private key store (`privateKeyStore`,
src/src/core/common/utility.go:512). -/
abbrev PrivStore := List (String × PrivKey)

/-- Lookup of a token in the private key store. -/
def privGet (ps : PrivStore) (token : String) : Option PrivKey :=
  (ps.find? (fun e => e.1 == token)).map (fun e => e.2)

/-- Deletion of a token from the private key store. -/
def privDelete (ps : PrivStore) (token : String) : PrivStore :=
  ps.filter (fun e => !(e.1 == token))

/-- Credential registration request, model.CredentialReq (fields used by
src/src/core/common/utility.go). -/
structure CredentialReq where
  ProviderName : String := ""
  CredentialHolder : String := ""
  PublicKeyTokenId : String := ""
  EncryptedClientAesKeyByPublicKey : String := ""
  CredentialKeyValueList : List KeyValuePair := []
  deriving Repr, DecidableEq

/-- Credential info exchanged with the broker, model.CredentialInfo. -/
structure CredentialInfo where
  CredentialName : String := ""
  CredentialHolder : String := ""
  ProviderName : String := ""
  KeyValueInfoList : List KeyValuePair := []
  AllConnections : List ConnConfig := []
  deriving Repr, DecidableEq

/-- Region/zone item of the broker's region list,
model.SpiderRegionZoneInfo (fields read by RegisterCredential). -/
structure SpiderRegionZoneInfo where
  ProviderName : String := ""
  RegionName : String := ""
  deriving Repr, DecidableEq

/-- Modelled from the spec: `model.DefaultCredentialHolder` (the model
package is outside src/); the spec names the sentinel default holder
"admin". -/
def DefaultCredentialHolder : String := "admin"

/-- Oracle for one `RegisterCredential` run: the external crypto and
base64 library calls and the broker responses, taken at their
boundaries. -/
structure RegisterCredentialOracle where
  decodeB64 : String → Except String (List Nat)
  rsaDecrypt : PrivKey → List Nat → Except String (List Nat)
  cbcDecrypt : List Nat → List Nat → List Nat → List Nat
  bytesToString : List Nat → String
  credentialBroker : CredentialInfo → Except String CredentialInfo
  regionList : Except String (List SpiderRegionZoneInfo)
  connConfigPush : String → Except String Unit
  regionInfo : String → Except String (List KeyValuePair)
  probe : String → Bool

/-- AES block size (crypto/aes). -/
def aesBlockSize : Nat := 16

/-- NewCipher from crypto/aes: fails unless the key is 16, 24 or 32 bytes
long (library boundary). -/
def aesNewCipher (key : List Nat) : Except String Unit :=
  if key.length = 16 ∨ key.length = 24 ∨ key.length = 32 then Except.ok ()
  else Except.error "crypto/aes: invalid key size"

/-- Output buffer of CryptBlocks: Go allocates `len(ciphertext)` bytes
(`make([]byte, len(ciphertext))`), so the decrypted value always has the
ciphertext's length. -/
def fitLen (n : Nat) (l : List Nat) : List Nat :=
  l.take n ++ List.replicate (n - l.length) 0

/-- unpad from src/src/core/common/utility.go:545-552. Reading
`data[length-1]` on an empty slice is a Go runtime panic. -/
def unpad (data : List Nat) (blockSize : Nat) : GoResult (List Nat) :=
  match data.getLast? with
  | none => GoResult.panicked "runtime error: index out of range [-1]"
  | some unpadding =>
    if unpadding > blockSize ∨ unpadding > data.length then
      GoResult.err "invalid padding size"
    else GoResult.ok (data.take (data.length - unpadding))

/-- One iteration of the value-decryption loop of RegisterCredential
(src/src/core/common/utility.go:590-617). Slicing `encryptedBytes` up to
the AES block size panics when fewer bytes were decoded, and CryptBlocks
panics on partial blocks. -/
def decryptCredentialValue (o : RegisterCredentialOracle) (aesKey : List Nat)
    (kv : KeyValuePair) : GoResult KeyValuePair :=
  match o.decodeB64 kv.Value with
  | Except.error e => GoResult.err ("failed to decode encrypted value: " ++ e)
  | Except.ok encryptedBytes =>
    match aesNewCipher aesKey with
    | Except.error e => GoResult.err ("failed to create AES cipher: " ++ e)
    | Except.ok () =>
      if encryptedBytes.length < aesBlockSize then
        GoResult.panicked "runtime error: slice bounds out of range"
      else
        let iv := encryptedBytes.take aesBlockSize
        let ciphertext := encryptedBytes.drop aesBlockSize
        if ciphertext.length % aesBlockSize ≠ 0 then
          GoResult.panicked "crypto/cipher: input not full blocks"
        else
          let decryptedValue := fitLen ciphertext.length (o.cbcDecrypt aesKey iv ciphertext)
          match unpad decryptedValue aesBlockSize with
          | GoResult.panicked m => GoResult.panicked m
          | GoResult.err e => GoResult.err ("failed to unpad decrypted value: " ++ e)
          | GoResult.ok unpadded =>
            GoResult.ok { Key := kv.Key, Value := o.bytesToString unpadded }

/-- The value-decryption loop of RegisterCredential, stopping at the first
failure. -/
def decryptCredentialValues (o : RegisterCredentialOracle) (aesKey : List Nat) :
    List KeyValuePair → GoResult (List KeyValuePair)
  | [] => GoResult.ok []
  | kv :: rest =>
    match decryptCredentialValue o aesKey kv with
    | GoResult.err e => GoResult.err e
    | GoResult.panicked m => GoResult.panicked m
    | GoResult.ok dkv =>
      match decryptCredentialValues o aesKey rest with
      | GoResult.err e => GoResult.err e
      | GoResult.panicked m => GoResult.panicked m
      | GoResult.ok drest => GoResult.ok (dkv :: drest)

/-- Last value stored under a key in a Spider KeyValue list (the loop of
src/src/core/common/utility.go:941-948 overwrites on repeats). -/
def lastValueOf (kvs : List KeyValuePair) (k : String) : String :=
  match (kvs.filter (fun kv => kv.Key == k)).getLast? with
  | some kv => kv.Value
  | none => ""

/-- Splitting a character list at slashes. -/
def splitOnSlash : List Char → List (List Char)
  | [] => [[]]
  | c :: rest =>
    let r := splitOnSlash rest
    if c = '/' then [] :: r
    else
      match r with
      | [] => [[c]]
      | seg :: segs => (c :: seg) :: segs

/-- Path-depth filter on listed keys. Modelled from the spec:
`kvutil.FilterKvListBy` (outside src/) keeps entries whose key has exactly
`depth` nonempty path segments after the prefix (§4.1). -/
def keyDepthOk (pfxKey : String) (depth : Nat) (k : String) : Bool :=
  strHasPfx (pfxKey ++ "/") k &&
    (splitOnSlash (k.data.drop (pfxKey.length + 1))).length = depth &&
    (splitOnSlash (k.data.drop (pfxKey.length + 1))).all (fun seg => !(seg.isEmpty))

/-- FilterKvListBy applied to a listed prefix. -/
def FilterKvListBy (l : List (String × StoreValue)) (pfxKey : String) (depth : Nat) :
    List (String × StoreValue) :=
  l.filter (fun e => keyDepthOk pfxKey depth e.1)

/-- Unmarshalling of listed connection entries
(src/src/core/common/utility.go:332-341). -/
def unmarshalConns : List (String × StoreValue) → Except String (List ConnConfig)
  | [] => Except.ok []
  | (_, StoreValue.conn c) :: rest =>
    match unmarshalConns rest with
    | Except.error e => Except.error e
    | Except.ok cs => Except.ok (c :: cs)
  | _ => Except.error "failed to unmarshal the connection config"

/-- GetConnConfigList from src/src/core/common/utility.go:320-380: lists
`/connection`, keeps depth-1 keys, unmarshals, then filters by holder,
verified flag and representative flag. -/
def GetConnConfigList (st : KVStore) (filterCredentialHolder : String)
    (filterVerified filterRegionRepresentative : Bool) : Except String (List ConnConfig) :=
  let entries := FilterKvListBy (kvGetKvList st "/connection") "/connection" 1
  match unmarshalConns entries with
  | Except.error e => Except.error e
  | Except.ok conns =>
    let l1 := if filterCredentialHolder ≠ "" then
        conns.filter (fun c => strEqFold c.CredentialHolder filterCredentialHolder)
      else conns
    let l2 := if filterVerified then l1.filter (fun c => c.Verified) else l1
    let l3 := if filterRegionRepresentative then
        l2.filter (fun c => c.RegionRepresentative)
      else l2
    Except.ok l3

/-- The connection object assembled by RegisterConnectionConfig from the
broker echo, the region/zone assignment and the catalog detail
(src/src/core/common/utility.go:912-956). Verified and
RegionRepresentative start at their zero values. -/
def assembledConn (cc : ConnConfig) (kvs : List KeyValuePair) (rd : RegionDetail) : ConnConfig :=
  { ConfigName := cc.ConfigName
    ProviderName := strToLower cc.ProviderName
    DriverName := cc.DriverName
    CredentialName := cc.CredentialName
    RegionZoneInfoName := cc.RegionZoneInfoName
    CredentialHolder := cc.CredentialHolder
    RegionZoneInfo :=
      { AssignedRegion := lastValueOf kvs "Region", AssignedZone := lastValueOf kvs "Zone" }
    RegionDetail := rd }

/-- RegisterConnectionConfig from src/src/core/common/utility.go:864-970:
push the config to the broker (which echoes the registered config), load
its region/zone assignment, resolve the catalog region detail, and persist
the connection under its key. -/
def RegisterConnectionConfig (st : KVStore) (cloudInfo : CloudInfo)
    (o : RegisterCredentialOracle) (cc : ConnConfig) : Except String ConnConfig × KVStore :=
  match o.connConfigPush cc.ConfigName with
  | Except.error e => (Except.error e, st)
  | Except.ok () =>
    match o.regionInfo cc.RegionZoneInfoName with
    | Except.error e => (Except.error e, st)
    | Except.ok kvs =>
      match GetRegion cloudInfo (strToLower cc.ProviderName) (lastValueOf kvs "Region") with
      | Except.error e => (Except.error e, st)
      | Except.ok rd =>
        let conn2 := assembledConn cc kvs rd
        (Except.ok conn2, kvPut st (GenConnectionKey conn2.ConfigName) (StoreValue.conn conn2))

/-- The connection config assembled per region by RegisterCredential
(src/src/core/common/utility.go:693-704). -/
def buildConnConfig (provider driverName credName holder : String)
    (region : SpiderRegionZoneInfo) : ConnConfig :=
  { ConfigName := if holder = DefaultCredentialHolder then region.RegionName
      else holder ++ "-" ++ region.RegionName
    ProviderName := strToUpper provider
    DriverName := driverName
    CredentialName := credName
    RegionZoneInfoName := region.RegionName
    CredentialHolder := holder }

/-- The per-region connection registration loop of RegisterCredential
(src/src/core/common/utility.go:691-711). -/
def registerConnConfigLoop (cloudInfo : CloudInfo) (o : RegisterCredentialOracle)
    (provider driverName credName holder : String) :
    KVStore → List SpiderRegionZoneInfo → Except String Unit × KVStore
  | st, [] => (Except.ok (), st)
  | st, region :: rest =>
    if strToLower region.ProviderName == provider then
      match RegisterConnectionConfig st cloudInfo o
          (buildConnConfig provider driverName credName holder region) with
      | (Except.error e, st1) => (Except.error e, st1)
      | (Except.ok _, st1) =>
        registerConnConfigLoop cloudInfo o provider driverName credName holder st1 rest
    else registerConnConfigLoop cloudInfo o provider driverName credName holder st rest

/-- One verification probe (the goroutine body of
src/src/core/common/utility.go:735-753). -/
def probeConn (cloudInfo : CloudInfo) (o : RegisterCredentialOracle) (c : ConnConfig) :
    ConnConfig :=
  if o.probe c.ConfigName then
    match GetRegion cloudInfo c.ProviderName c.RegionDetail.RegionName with
    | Except.error _ => { c with Verified := false }
    | Except.ok rd => { c with Verified := true, RegionDetail := rd }
  else { c with Verified := false }

/-- Persisting the verified probe results
(src/src/core/common/utility.go:761-773). -/
def writeVerified (st : KVStore) (results : List ConnConfig) : KVStore :=
  (results.filter (fun c => c.Verified)).foldl
    (fun s c => kvPut s (GenConnectionKey c.ConfigName) (StoreValue.conn c)) st

/-- Region-representative election (src/src/core/common/utility.go:791-799):
first connection per `<provider>-<region>` prefix whose RegionZoneInfoName
equals the prefix (case-insensitively); first occupant of a prefix wins. -/
def electRepsAux (provider : String) (seen : List String) :
    List ConnConfig → List ConnConfig
  | [] => []
  | c :: rest =>
    let p := provider ++ "-" ++ c.RegionDetail.RegionName
    if strEqFold c.RegionZoneInfoName p && !(seen.contains p) then
      c :: electRepsAux provider (p :: seen) rest
    else electRepsAux provider seen rest

/-- Region-representative election over the holder's connections. -/
def electRepresentatives (provider : String) (conns : List ConnConfig) : List ConnConfig :=
  electRepsAux provider [] conns

/-- Persisting the elected representatives
(src/src/core/common/utility.go:800-811). -/
def writeReps (st : KVStore) (reps : List ConnConfig) : KVStore :=
  reps.foldl
    (fun s c => kvPut s (GenConnectionKey c.ConfigName)
      (StoreValue.conn { c with RegionRepresentative := true })) st

/-- Zone rewrite for unverified representatives
(src/src/core/common/utility.go:822-851): an unverified representative of
the provider takes the region/zone handle of the first verified connection
whose name extends its own, and is persisted. -/
def zoneRewriteOf (verifiedConns : List ConnConfig) (c : ConnConfig) : ConnConfig :=
  match verifiedConns.find? (fun vc => strHasPfx c.ConfigName vc.ConfigName) with
  | some vc =>
    { c with
      RegionZoneInfoName := vc.RegionZoneInfoName
      RegionZoneInfo := vc.RegionZoneInfo }
  | none => c

/-- The per-representative traversal persisting the rewrites. -/
def zoneRewriteLoop (provider : String) (verifiedConns : List ConnConfig) :
    KVStore → List ConnConfig → KVStore
  | st, [] => st
  | st, c :: rest =>
    if strEqFold provider c.ProviderName then
      if verifiedConns.any (fun vc => strEqFold c.ConfigName vc.ConfigName) then
        zoneRewriteLoop provider verifiedConns st rest
      else
        let c2 := zoneRewriteOf verifiedConns c
        zoneRewriteLoop provider verifiedConns
          (kvPut st (GenConnectionKey c2.ConfigName) (StoreValue.conn c2)) rest
    else zoneRewriteLoop provider verifiedConns st rest

/-- RegisterCredential after the private key was deleted
(src/src/core/common/utility.go:625-860): name generation, broker
forwarding, connection registration for every region of the provider,
verification fan-out, representative election and zone rewrite. The
in-memory private key store is not touched by any of this. -/
def registerCredentialPostCrypto (st : KVStore) (cloudInfo : CloudInfo)
    (o : RegisterCredentialOracle) (req : CredentialReq)
    (decryptedKeyValueList : List KeyValuePair) : GoResult CredentialInfo × KVStore :=
  let holder := strToLower req.CredentialHolder
  let provider := strToLower req.ProviderName
  let genCredName := if holder = DefaultCredentialHolder then provider
    else holder ++ "-" ++ provider
  let restored := decryptedKeyValueList.map
    (fun kv => ({ kv with Value := kv.Value.replace "\\n" "\n" } : KeyValuePair))
  let reqToSpider : CredentialInfo :=
    { CredentialName := genCredName
      ProviderName := strToUpper provider
      KeyValueInfoList := restored }
  match o.credentialBroker reqToSpider with
  | Except.error e => (GoResult.err e, st)
  | Except.ok callResult0 =>
    let callResult : CredentialInfo :=
      { callResult0 with
        CredentialHolder := holder
        ProviderName := strToLower callResult0.ProviderName
        KeyValueInfoList := callResult0.KeyValueInfoList.map
          (fun kv => ({ kv with Value := "************" } : KeyValuePair)) }
    match cloudInfo.CSPs.find? (fun e => e.1 == callResult.ProviderName) with
    | none => (GoResult.err ("cloudType " ++ callResult.ProviderName ++ " not found"), st)
    | some cspEntry =>
      match o.regionList with
      | Except.error e => (GoResult.err e, st)
      | Except.ok regions =>
        match registerConnConfigLoop cloudInfo o callResult.ProviderName cspEntry.2.Driver
            callResult.CredentialName holder st regions with
        | (Except.error e, st1) => (GoResult.err e, st1)
        | (Except.ok (), st1) =>
          match GetConnConfigList st1 holder false false with
          | Except.error e => (GoResult.err e, st1)
          | Except.ok allConns =>
            let filtered := (allConns.filter
                (fun c => strEqFold callResult.ProviderName c.ProviderName)).map
              (fun c => { c with ProviderName := strToLower c.ProviderName })
            let results := filtered.map (fun c => probeConn cloudInfo o c)
            let st2 := writeVerified st1 results
            match GetConnConfigList st2 holder false false with
            | Except.error e => (GoResult.err e, st2)
            | Except.ok allConns2 =>
              let reps := electRepresentatives provider allConns2
              let st3 := writeReps st2 reps
              match GetConnConfigList st3 holder true false with
              | Except.error e => (GoResult.err e, st3)
              | Except.ok verifiedConns =>
                let repConns := match GetConnConfigList st3 holder false true with
                  | Except.ok l => l
                  | Except.error _ => []
                let st4 := zoneRewriteLoop provider verifiedConns st3 repConns
                match GetConnConfigList st4 holder false false with
                | Except.error e => (GoResult.err e, st4)
                | Except.ok finalConns =>
                  (GoResult.ok { callResult with AllConnections := finalConns }, st4)

/-- RegisterCredential from src/src/core/common/utility.go:555-861. -/
def RegisterCredential (ps : PrivStore) (st : KVStore) (cloudInfo : CloudInfo)
    (o : RegisterCredentialOracle) (req : CredentialReq) :
    GoResult CredentialInfo × PrivStore × KVStore :=
  match privGet ps req.PublicKeyTokenId with
  | none =>
    (GoResult.err ("private key not found for token ID: " ++ req.PublicKeyTokenId), ps, st)
  | some privateKey =>
    match o.decodeB64 req.EncryptedClientAesKeyByPublicKey with
    | Except.error e => (GoResult.err ("failed to decode encrypted AES key: " ++ e), ps, st)
    | Except.ok encryptedAesKey =>
      match o.rsaDecrypt privateKey encryptedAesKey with
      | Except.error e => (GoResult.err ("failed to decrypt AES key: " ++ e), ps, st)
      | Except.ok aesKey =>
        match decryptCredentialValues o aesKey req.CredentialKeyValueList with
        | GoResult.err e => (GoResult.err e, ps, st)
        | GoResult.panicked m => (GoResult.panicked m, ps, st)
        | GoResult.ok decryptedKeyValueList =>
          let ps1 := privDelete ps req.PublicKeyTokenId
          let r := registerCredentialPostCrypto st cloudInfo o req decryptedKeyValueList
          (r.1, ps1, r.2)

/-! ### Claims C10 and C2 -/

/-- Oracle fixture for the C10 runs: the AES key decodes and decrypts
fine, while credential values decode to fewer than one AES block
("short") or to exactly one block ("ivonly"). -/
def c10Oracle : RegisterCredentialOracle :=
  { decodeB64 := fun s =>
      if s = "aes" then Except.ok (List.replicate 16 0)
      else if s = "short" then Except.ok (List.replicate 8 0)
      else if s = "ivonly" then Except.ok (List.replicate 16 1)
      else Except.error "illegal base64 data"
    rsaDecrypt := fun _ _ => Except.ok (List.replicate 16 2)
    cbcDecrypt := fun _ _ _ => []
    bytesToString := fun _ => ""
    credentialBroker := fun ci => Except.ok ci
    regionList := Except.ok []
    connConfigPush := fun _ => Except.ok ()
    regionInfo := fun _ => Except.error "no region"
    probe := fun _ => false }

/-- C10: RegisterCredential is not total. With the token present and the
AES key decrypting, a credential value whose base64 decoding is shorter
than one AES block makes `encryptedBytes[:aes.BlockSize]` reach out of
range, and a value of exactly one block (empty payload after the IV) makes
`unpad` read `data[length-1]` of an empty slice: both runs end in a Go
panic, not a returned error. -/
theorem claim_C10 :
    (RegisterCredential [("tok", "pk")] [] {} c10Oracle
      { ProviderName := "aws", CredentialHolder := "h", PublicKeyTokenId := "tok",
        EncryptedClientAesKeyByPublicKey := "aes",
        CredentialKeyValueList := [{ Key := "sk", Value := "short" }] }).1 =
      GoResult.panicked "runtime error: slice bounds out of range" ∧
    (RegisterCredential [("tok", "pk")] [] {} c10Oracle
      { ProviderName := "aws", CredentialHolder := "h", PublicKeyTokenId := "tok",
        EncryptedClientAesKeyByPublicKey := "aes",
        CredentialKeyValueList := [{ Key := "sk", Value := "ivonly" }] }).1 =
      GoResult.panicked "runtime error: index out of range [-1]" := by
  constructor
  · decide
  · decide

/-- Oracle fixture for the C2 counterexample: base64 decoding of the AES
key fails. -/
def c2FailOracle : RegisterCredentialOracle :=
  { decodeB64 := fun _ => Except.error "illegal base64 data"
    rsaDecrypt := fun _ _ => Except.error "rsa"
    cbcDecrypt := fun _ _ _ => []
    bytesToString := fun _ => ""
    credentialBroker := fun _ => Except.error "broker"
    regionList := Except.ok []
    connConfigPush := fun _ => Except.ok ()
    regionInfo := fun _ => Except.error "no region"
    probe := fun _ => false }

/-- C2, counterexample: the claim says the private-key entry is gone after
RegisterCredential returns regardless of success or failure; but when the
base64 decoding of the AES key fails, the function returns the error with
the token still present in the store. -/
theorem claim_C2_counterexample :
    (RegisterCredential [("tok", "pk")] [] {} c2FailOracle
      { PublicKeyTokenId := "tok", EncryptedClientAesKeyByPublicKey := "x" }).1 =
      GoResult.err "failed to decode encrypted AES key: illegal base64 data" ∧
    privGet (RegisterCredential [("tok", "pk")] [] {} c2FailOracle
      { PublicKeyTokenId := "tok", EncryptedClientAesKeyByPublicKey := "x" }).2.1 "tok" =
      some "pk" := by
  constructor
  · decide
  · decide

/-- Looking the deleted token up yields nothing. -/
theorem privGet_privDelete_self (ps : PrivStore) (token : String) :
    privGet (privDelete ps token) token = none := by
  unfold privGet privDelete
  have h : (ps.filter (fun e => !(e.1 == token))).find? (fun e => e.1 == token) = none := by
    rw [List.find?_eq_none]
    intro e he
    have := (List.mem_filter.mp he).2
    simp_all
  rw [h]
  rfl

/-- C2, amended claim: the private-key entry for the token is removed
exactly when the decoding and decryption of the AES key and of every
credential value succeed — the deletion happens before the broker call, so
it also survives any broker or registration failure; on an earlier decode,
RSA-OAEP or AES/unpad failure the function returns with the entry still
present (as the counterexample shows). -/
theorem claim_C2_amended (ps : PrivStore) (st : KVStore) (ci : CloudInfo)
    (o : RegisterCredentialOracle) (req : CredentialReq) (pk : PrivKey)
    (k1 aesKey : List Nat) (dl : List KeyValuePair)
    (h1 : privGet ps req.PublicKeyTokenId = some pk)
    (h2 : o.decodeB64 req.EncryptedClientAesKeyByPublicKey = Except.ok k1)
    (h3 : o.rsaDecrypt pk k1 = Except.ok aesKey)
    (h4 : decryptCredentialValues o aesKey req.CredentialKeyValueList = GoResult.ok dl) :
    privGet (RegisterCredential ps st ci o req).2.1 req.PublicKeyTokenId = none := by
  unfold RegisterCredential
  rw [h1]
  dsimp only
  rw [h2]
  dsimp only
  rw [h3]
  dsimp only
  rw [h4]
  dsimp only
  exact privGet_privDelete_self ps req.PublicKeyTokenId

/-- Oracle fixture for the C2 witness: all decryption succeeds and the
broker then fails, yet the token is deleted. -/
def c2OkOracle : RegisterCredentialOracle :=
  { decodeB64 := fun _ => Except.ok (List.replicate 16 0)
    rsaDecrypt := fun _ _ => Except.ok (List.replicate 16 2)
    cbcDecrypt := fun _ _ _ => []
    bytesToString := fun _ => ""
    credentialBroker := fun _ => Except.error "broker down"
    regionList := Except.ok []
    connConfigPush := fun _ => Except.ok ()
    regionInfo := fun _ => Except.error "no region"
    probe := fun _ => false }

/-- C2, witness: a concrete run whose broker call fails still removes the
token. -/
theorem claim_C2_amended_witness :
    privGet (RegisterCredential [("tok", "pk")] [] {} c2OkOracle
      { ProviderName := "aws", CredentialHolder := "h", PublicKeyTokenId := "tok",
        EncryptedClientAesKeyByPublicKey := "x" }).2.1 "tok" = none :=
  claim_C2_amended [("tok", "pk")] [] {} c2OkOracle
    { ProviderName := "aws", CredentialHolder := "h", PublicKeyTokenId := "tok",
      EncryptedClientAesKeyByPublicKey := "x" } "pk"
    (List.replicate 16 0) (List.replicate 16 2) []
    (by decide) rfl rfl rfl

/-! ### Claim C3: region representatives -/

/-- Projection of a stored connection entry that the C3 statements
inspect: holder, provider, region and the representative flag. -/
def connRepOf (st : KVStore) (k : String) : Option (String × String × String × Bool) :=
  match kvGet st k with
  | some (StoreValue.conn c) =>
    some (c.CredentialHolder, c.ProviderName, c.RegionDetail.RegionName,
      c.RegionRepresentative)
  | _ => none

/-- Catalog fixture for the C3 runs: provider aws with region us-east-1
and zone a. -/
def c3Cloud : CloudInfo :=
  { CSPs := [("aws",
      { Driver := "aws-driver"
        Regions := [("us-east-1",
          { RegionId := "use1", RegionName := "us-east-1", Zones := ["a"] })] })] }

/-- Oracle fixture for the C3 runs: every broker call succeeds, both the
region-only and the zoned region are registered, every probe verifies. -/
def c3Oracle : RegisterCredentialOracle :=
  { decodeB64 := fun _ => Except.ok (List.replicate 16 0)
    rsaDecrypt := fun _ _ => Except.ok (List.replicate 16 2)
    cbcDecrypt := fun _ _ _ => []
    bytesToString := fun _ => ""
    credentialBroker := fun ci => Except.ok ci
    regionList := Except.ok
      [{ ProviderName := "AWS", RegionName := "aws-us-east-1" },
        { ProviderName := "AWS", RegionName := "aws-us-east-1-a" }]
    connConfigPush := fun _ => Except.ok ()
    regionInfo := fun _ => Except.ok
      [{ Key := "Region", Value := "us-east-1" }, { Key := "Zone", Value := "a" }]
    probe := fun _ => true }

/-- Credential request fixture for holder alice. -/
def c3ReqAlice : CredentialReq :=
  { ProviderName := "aws", CredentialHolder := "alice", PublicKeyTokenId := "t1",
    EncryptedClientAesKeyByPublicKey := "x" }

/-- Credential request fixture for holder bob. -/
def c3ReqBob : CredentialReq :=
  { ProviderName := "aws", CredentialHolder := "bob", PublicKeyTokenId := "t2",
    EncryptedClientAesKeyByPublicKey := "x" }

/-- C3, counterexample: representative election is scoped to the
registering credential holder. After registering a credential for holder
alice and then one for holder bob (same provider aws, same region
us-east-1), the store holds two ConnConfigs under the /connection/ prefix
for the pair (aws, us-east-1) that both carry RegionRepresentative=true,
so "at most one per (provider, region)" is false. -/
theorem claim_C3_counterexample :
    connRepOf
      (RegisterCredential [("t2", "k")]
        (RegisterCredential [("t1", "k")] [] c3Cloud c3Oracle c3ReqAlice).2.2
        c3Cloud c3Oracle c3ReqBob).2.2
      "/connection/alice-aws-us-east-1" = some ("alice", "aws", "us-east-1", true) ∧
    connRepOf
      (RegisterCredential [("t2", "k")]
        (RegisterCredential [("t1", "k")] [] c3Cloud c3Oracle c3ReqAlice).2.2
        c3Cloud c3Oracle c3ReqBob).2.2
      "/connection/bob-aws-us-east-1" = some ("bob", "aws", "us-east-1", true) ∧
    ("/connection/alice-aws-us-east-1" : String) ≠ "/connection/bob-aws-us-east-1" := by
  refine ⟨by decide, by decide, by decide⟩

/-- Membership in the store after a put. -/
theorem mem_kvPut (st : KVStore) (k : String) (v : StoreValue) (e : String × StoreValue)
    (h : e ∈ kvPut st k v) : e ∈ st ∨ e = (k, v) := by
  unfold kvPut at h
  rcases List.mem_append.mp h with h2 | h2
  · exact Or.inl (List.mem_filter.mp h2).1
  · exact Or.inr (List.mem_singleton.mp h2)

/-- Well-formedness of the connection section of the store: every entry
under the /connection/ prefix is a connection config stored under its
canonical key whose value satisfies `p`. -/
def connWF (p : ConnConfig → Prop) (st : KVStore) : Prop :=
  ∀ e ∈ st, strHasPfx "/connection/" e.1 = true →
    ∃ c, e.2 = StoreValue.conn c ∧ e.1 = GenConnectionKey c.ConfigName ∧ p c

/-- The connection section of the store is functional: one value per
key. -/
def connFunc (st : KVStore) : Prop :=
  ∀ e1 ∈ st, ∀ e2 ∈ st, strHasPfx "/connection/" e1.1 = true → e1.1 = e2.1 → e1.2 = e2.2

/-- Both store invariants bundled. -/
def connInv (p : ConnConfig → Prop) (st : KVStore) : Prop :=
  connWF p st ∧ connFunc st

theorem connWF_mono (p q : ConnConfig → Prop) (st : KVStore)
    (hpq : ∀ c, p c → q c) (h : connWF p st) : connWF q st := by
  intro e he hpfx
  obtain ⟨c, h1, h2, h3⟩ := h e he hpfx
  exact ⟨c, h1, h2, hpq c h3⟩

theorem connInv_mono (p q : ConnConfig → Prop) (st : KVStore)
    (hpq : ∀ c, p c → q c) (h : connInv p st) : connInv q st :=
  ⟨connWF_mono p q st hpq h.1, h.2⟩

/-- Membership in the store after a put, with the key information. -/
theorem mem_kvPut_cases (st : KVStore) (k : String) (v : StoreValue) (e : String × StoreValue)
    (h : e ∈ kvPut st k v) : (e ∈ st ∧ e.1 ≠ k) ∨ e = (k, v) := by
  unfold kvPut at h
  rcases List.mem_append.mp h with h2 | h2
  · have hm := List.mem_filter.mp h2
    refine Or.inl ⟨hm.1, ?_⟩
    have := hm.2
    simp_all
  · exact Or.inr (List.mem_singleton.mp h2)

/-- The bundled invariant is preserved by a put whose value is either not
under /connection/ or a canonical connection entry satisfying `p`. -/
theorem connInv_kvPut (p : ConnConfig → Prop) (st : KVStore) (k : String) (v : StoreValue)
    (h : connInv p st)
    (hv : strHasPfx "/connection/" k = true →
      ∃ c, v = StoreValue.conn c ∧ k = GenConnectionKey c.ConfigName ∧ p c) :
    connInv p (kvPut st k v) := by
  constructor
  · intro e he hpfx
    rcases mem_kvPut st k v e he with h2 | h2
    · exact h.1 e h2 hpfx
    · subst h2
      exact hv hpfx
  · intro e1 he1 e2 he2 hpfx hk
    rcases mem_kvPut_cases st k v e1 he1 with ⟨m1, n1⟩ | m1 <;>
      rcases mem_kvPut_cases st k v e2 he2 with ⟨m2, n2⟩ | m2
    · exact h.2 e1 m1 e2 m2 hpfx hk
    · exfalso
      rw [m2] at hk
      exact n1 hk
    · exfalso
      rw [m1] at hk
      exact n2 hk.symm
    · rw [m1, m2]

/-- Values produced by `unmarshalConns` come from entries of the listed
section. -/
theorem unmarshalConns_mem (entries : List (String × StoreValue)) (cs : List ConnConfig)
    (hok : unmarshalConns entries = Except.ok cs) :
    ∀ c ∈ cs, ∃ e ∈ entries, e.2 = StoreValue.conn c := by
  induction entries generalizing cs with
  | nil =>
    unfold unmarshalConns at hok
    cases hok
    simp
  | cons e rest ih =>
    obtain ⟨k, v⟩ := e
    cases v with
    | conn c0 =>
      unfold unmarshalConns at hok
      cases hrest : unmarshalConns rest with
      | error e2 =>
        rw [hrest] at hok
        simp at hok
      | ok cs2 =>
        rw [hrest] at hok
        simp only at hok
        cases hok
        intro c hc
        rcases List.mem_cons.mp hc with rfl | hc2
        · exact ⟨(k, StoreValue.conn c), List.mem_cons_self _ _, rfl⟩
        · obtain ⟨e2, he2, hv2⟩ := ih cs2 hrest c hc2
          exact ⟨e2, List.mem_cons_of_mem _ he2, hv2⟩
    | vnet v0 =>
      unfold unmarshalConns at hok
      simp at hok
    | subnet s0 =>
      unfold unmarshalConns at hok
      simp at hok

/-- Membership through an optional filter. -/
theorem mem_of_ite_filter {α : Type} (b : Prop) [Decidable b] (p : α → Bool) (l : List α)
    (x : α) (h : x ∈ (if b then l.filter p else l)) : x ∈ l := by
  split at h
  · exact (List.mem_filter.mp h).1
  · exact h

/-- Every config returned by `GetConnConfigList` is the value of a stored
connection entry. -/
theorem GetConnConfigList_mem (st : KVStore) (holder : String) (fv fr : Bool)
    (l : List ConnConfig) (hok : GetConnConfigList st holder fv fr = Except.ok l) :
    ∀ c ∈ l, ∃ e ∈ st, e.2 = StoreValue.conn c ∧ strHasPfx "/connection/" e.1 = true := by
  unfold GetConnConfigList at hok
  dsimp only at hok
  cases hum : unmarshalConns (FilterKvListBy (kvGetKvList st "/connection") "/connection" 1) with
  | error e =>
    rw [hum] at hok
    simp at hok
  | ok conns =>
    rw [hum] at hok
    simp only at hok
    cases hok
    intro c hc
    have hc1 : c ∈ conns := by
      have h2 := mem_of_ite_filter _ _ _ _ hc
      have h3 := mem_of_ite_filter _ _ _ _ h2
      exact mem_of_ite_filter _ _ _ _ h3
    obtain ⟨e, he, hv⟩ := unmarshalConns_mem _ conns hum c hc1
    refine ⟨e, ?_, hv, ?_⟩
    · have h1 := List.mem_filter.mp he
      exact (List.mem_filter.mp h1.1).1
    · have h1 := List.mem_filter.mp he
      have h2 := h1.2
      unfold keyDepthOk at h2
      have h3 := (Bool.and_eq_true _ _).mp ((Bool.and_eq_true _ _).mp h2).1
      have h4 : ("/connection" ++ "/" : String) = "/connection/" := rfl
      rw [h4] at h3
      exact h3.1

/-- The store after `RegisterConnectionConfig` is either unchanged or
extended by one canonical, non-representative connection entry. -/
theorem RegisterConnectionConfig_cases (st : KVStore) (ci : CloudInfo)
    (o : RegisterCredentialOracle) (cc : ConnConfig) :
    (RegisterConnectionConfig st ci o cc).2 = st ∨
    ∃ c : ConnConfig,
      (RegisterConnectionConfig st ci o cc).2 =
        kvPut st (GenConnectionKey c.ConfigName) (StoreValue.conn c) ∧
      c.RegionRepresentative = false := by
  unfold RegisterConnectionConfig
  cases hpush : o.connConfigPush cc.ConfigName with
  | error e => exact Or.inl rfl
  | ok u =>
    cases u
    dsimp only
    cases hri : o.regionInfo cc.RegionZoneInfoName with
    | error e => exact Or.inl rfl
    | ok kvs =>
      dsimp only
      cases hgr : GetRegion ci (strToLower cc.ProviderName)
          (lastValueOf kvs "Region") with
      | error e => exact Or.inl rfl
      | ok rd =>
        dsimp only
        exact Or.inr ⟨assembledConn cc kvs rd, rfl, rfl⟩

/-- The per-region registration loop preserves the bundled invariant for
any predicate implied by the non-representative flag. -/
theorem connInv_registerConnConfigLoop (p : ConnConfig → Prop)
    (hp : ∀ c : ConnConfig, c.RegionRepresentative = false → p c)
    (ci : CloudInfo) (o : RegisterCredentialOracle)
    (provider driver cred holder : String) :
    ∀ (regions : List SpiderRegionZoneInfo) (st : KVStore), connInv p st →
      connInv p (registerConnConfigLoop ci o provider driver cred holder st regions).2 := by
  intro regions
  induction regions with
  | nil =>
    intro st h
    exact h
  | cons r rest ih =>
    intro st h
    unfold registerConnConfigLoop
    split
    · have hcase := RegisterConnectionConfig_cases st ci o
        (buildConnConfig provider driver cred holder r)
      cases hrc : RegisterConnectionConfig st ci o
          (buildConnConfig provider driver cred holder r) with
      | mk res st1 =>
        rw [hrc] at hcase
        dsimp only at hcase
        have hst1 : connInv p st1 := by
          rcases hcase with hcase | ⟨c, hcase, hrep⟩
          · rw [hcase]
            exact h
          · rw [hcase]
            exact connInv_kvPut p st _ _ h (fun _ => ⟨c, rfl, rfl, hp c hrep⟩)
        cases res with
        | error e => exact hst1
        | ok c2 =>
          dsimp only
          exact ih st1 hst1
    · exact ih st h

/-- Folds writing canonical connection entries preserve the bundled
invariant when every written value satisfies the predicate. -/
theorem connInv_foldl_put (p : ConnConfig → Prop) (g : ConnConfig → ConnConfig)
    (hg : ∀ c, (g c).ConfigName = c.ConfigName) :
    ∀ (l : List ConnConfig) (st : KVStore), connInv p st → (∀ c ∈ l, p (g c)) →
      connInv p (l.foldl (fun s c => kvPut s (GenConnectionKey c.ConfigName)
        (StoreValue.conn (g c))) st) := by
  intro l
  induction l with
  | nil =>
    intro st h _
    exact h
  | cons c rest ih =>
    intro st h hl
    rw [List.foldl_cons]
    refine ih _ ?_ (fun c2 hc2 => hl c2 (List.mem_cons_of_mem _ hc2))
    refine connInv_kvPut p st _ _ h (fun _ => ⟨g c, rfl, ?_, hl c (List.mem_cons_self _ _)⟩)
    rw [hg c]

/-- The zone-rewrite traversal preserves the bundled invariant when the
rewrite of every visited config satisfies the predicate. -/
theorem connInv_zoneRewriteLoop (p : ConnConfig → Prop) (provider : String)
    (verifiedConns : List ConnConfig) :
    ∀ (repConns : List ConnConfig) (st : KVStore), connInv p st →
      (∀ c ∈ repConns, p (zoneRewriteOf verifiedConns c)) →
      connInv p (zoneRewriteLoop provider verifiedConns st repConns) := by
  intro repConns
  induction repConns with
  | nil =>
    intro st h _
    exact h
  | cons c rest ih =>
    intro st h hl
    unfold zoneRewriteLoop
    split
    · split
      · exact ih st h (fun c2 hc2 => hl c2 (List.mem_cons_of_mem _ hc2))
      · refine ih _ ?_ (fun c2 hc2 => hl c2 (List.mem_cons_of_mem _ hc2))
        exact connInv_kvPut p st _ _ h
          (fun _ => ⟨zoneRewriteOf verifiedConns c, rfl, rfl,
            hl c (List.mem_cons_self _ _)⟩)
    · exact ih st h (fun c2 hc2 => hl c2 (List.mem_cons_of_mem _ hc2))

/-- Probing preserves the representative flag. -/
theorem probeConn_rep (ci : CloudInfo) (o : RegisterCredentialOracle) (c : ConnConfig) :
    (probeConn ci o c).RegionRepresentative = c.RegionRepresentative := by
  unfold probeConn
  split
  · cases GetRegion ci c.ProviderName c.RegionDetail.RegionName <;> rfl
  · rfl

/-- The zone rewrite changes neither the representative flag, nor the
config name, nor the region detail. -/
theorem zoneRewriteOf_fields (v : List ConnConfig) (c : ConnConfig) :
    (zoneRewriteOf v c).RegionRepresentative = c.RegionRepresentative ∧
    (zoneRewriteOf v c).ConfigName = c.ConfigName ∧
    (zoneRewriteOf v c).RegionDetail = c.RegionDetail := by
  unfold zoneRewriteOf
  cases v.find? (fun vc => strHasPfx c.ConfigName vc.ConfigName) <;>
    exact ⟨rfl, rfl, rfl⟩

/-- Elected representatives come from the input list. -/
theorem electRepsAux_sub (provider : String) :
    ∀ (l : List ConnConfig) (seen : List String),
      ∀ r ∈ electRepsAux provider seen l, r ∈ l := by
  intro l
  induction l with
  | nil =>
    intro seen r hr
    exact absurd hr (List.not_mem_nil r)
  | cons c rest ih =>
    intro seen r hr
    unfold electRepsAux at hr
    dsimp only at hr
    split at hr
    · rcases List.mem_cons.mp hr with rfl | hr2
      · exact List.mem_cons_self _ _
      · exact List.mem_cons_of_mem _ (ih _ r hr2)
    · exact List.mem_cons_of_mem _ (ih _ r hr)

/-- Elected representatives occupy prefixes not seen before. -/
theorem electRepsAux_new (provider : String) :
    ∀ (l : List ConnConfig) (seen : List String),
      ∀ r ∈ electRepsAux provider seen l,
        seen.contains (provider ++ "-" ++ r.RegionDetail.RegionName) = false := by
  intro l
  induction l with
  | nil =>
    intro seen r hr
    exact absurd hr (List.not_mem_nil r)
  | cons c rest ih =>
    intro seen r hr
    unfold electRepsAux at hr
    dsimp only at hr
    split at hr
    · rename_i hcond
      rcases List.mem_cons.mp hr with rfl | hr2
      · have h2 := (Bool.and_eq_true _ _).mp hcond
        have h3 := h2.2
        simp only [Bool.not_eq_true'] at h3
        exact h3
      · have h4 := ih _ r hr2
        cases hc : List.contains seen (provider ++ "-" ++ r.RegionDetail.RegionName) with
        | false => rfl
        | true =>
          exfalso
          have h5 : List.contains ((provider ++ "-" ++ c.RegionDetail.RegionName) :: seen)
              (provider ++ "-" ++ r.RegionDetail.RegionName) = true := by
            rw [List.contains_cons]
            rw [hc]
            simp
          rw [h4] at h5
          cases h5
    · exact ih _ r hr

/-- Elected representatives have pairwise distinct region names. -/
theorem electRepsAux_regions (provider : String) :
    ∀ (l : List ConnConfig) (seen : List String),
      List.Pairwise (fun r1 r2 : ConnConfig =>
        r1.RegionDetail.RegionName ≠ r2.RegionDetail.RegionName)
        (electRepsAux provider seen l) := by
  intro l
  induction l with
  | nil =>
    intro seen
    unfold electRepsAux
    exact List.Pairwise.nil
  | cons c rest ih =>
    intro seen
    unfold electRepsAux
    dsimp only
    split
    · refine List.Pairwise.cons ?_ (ih _)
      intro r hr hreg
      have h4 := electRepsAux_new provider rest
        ((provider ++ "-" ++ c.RegionDetail.RegionName) :: seen) r hr
      rw [← hreg] at h4
      rw [List.contains_cons] at h4
      simp at h4
    · exact ih _

/-- The amended C3 property: among the connection configs stored under the
/connection/ prefix, at most one per (credentialHolder, provider, region)
carries RegionRepresentative=true. -/
def atMostOneRepPerHolder (st : KVStore) : Prop :=
  ∀ e1 ∈ st, ∀ e2 ∈ st, ∀ c1 c2 : ConnConfig,
    strHasPfx "/connection/" e1.1 = true → strHasPfx "/connection/" e2.1 = true →
    e1.2 = StoreValue.conn c1 → e2.2 = StoreValue.conn c2 →
    c1.RegionRepresentative = true → c2.RegionRepresentative = true →
    c1.CredentialHolder = c2.CredentialHolder →
    c1.ProviderName = c2.ProviderName →
    c1.RegionDetail.RegionName = c2.RegionDetail.RegionName →
    e1 = e2

/-- A store with no representative connection entries satisfies the
property vacuously. -/
theorem atMostOne_of_false (st : KVStore)
    (h : connInv (fun c => c.RegionRepresentative = false) st) :
    atMostOneRepPerHolder st := by
  intro e1 he1 e2 he2 c1 c2 hp1 hp2 hv1 hv2 hr1 hr2 _ _ _
  exfalso
  obtain ⟨c, hcv, _, hcr⟩ := h.1 e1 he1 hp1
  rw [hv1] at hcv
  cases hcv
  rw [hr1] at hcr
  cases hcr

/-- Representative characterization: every representative value descends
from an elected representative with the same config name and region. -/
def repCharacter (reps : List ConnConfig) (c : ConnConfig) : Prop :=
  c.RegionRepresentative = true →
    ∃ r ∈ reps, c.ConfigName = r.ConfigName ∧
      c.RegionDetail.RegionName = r.RegionDetail.RegionName

/-- A store whose representative values descend from a region-distinct
elected list satisfies the C3 property. -/
theorem atMostOne_of_charact (reps : List ConnConfig) (st : KVStore)
    (hpair : List.Pairwise (fun r1 r2 : ConnConfig =>
      r1.RegionDetail.RegionName ≠ r2.RegionDetail.RegionName) reps)
    (h : connInv (repCharacter reps) st) : atMostOneRepPerHolder st := by
  intro e1 he1 e2 he2 c1 c2 hp1 hp2 hv1 hv2 hr1 hr2 _ _ hregion
  obtain ⟨d1, hd1v, hd1k, hd1p⟩ := h.1 e1 he1 hp1
  obtain ⟨d2, hd2v, hd2k, hd2p⟩ := h.1 e2 he2 hp2
  rw [hv1] at hd1v
  rw [hv2] at hd2v
  cases hd1v
  cases hd2v
  obtain ⟨r1, hr1m, hcfg1, hreg1⟩ := hd1p hr1
  obtain ⟨r2, hr2m, hcfg2, hreg2⟩ := hd2p hr2
  have hrr : r1 = r2 := by
    by_contra hne
    have := List.Pairwise.forall
      (fun (a b : ConnConfig) (hh : a.RegionDetail.RegionName ≠ b.RegionDetail.RegionName) =>
        hh.symm) hpair hr1m hr2m hne
    exact this (hreg1.symm.trans (hregion.trans hreg2))
  have hcfg : c1.ConfigName = c2.ConfigName := by
    rw [hcfg1, hcfg2, hrr]
  have hkeys : e1.1 = e2.1 := by
    rw [hd1k, hd2k, hcfg]
  have hvals : e1.2 = e2.2 := h.2 e1 he1 e2 he2 hp1 hkeys
  exact Prod.ext hkeys hvals

/-- Every store `registerCredentialPostCrypto` can return satisfies the
amended C3 property, when the initial store has no /connection/ entries. -/
theorem registerCredentialPostCrypto_atMostOne (st : KVStore) (ci : CloudInfo)
    (o : RegisterCredentialOracle) (req : CredentialReq) (dl : List KeyValuePair)
    (hclean : ∀ e ∈ st, strHasPfx "/connection/" e.1 = false) :
    atMostOneRepPerHolder (registerCredentialPostCrypto st ci o req dl).2 := by
  have h0 : connInv (fun c => c.RegionRepresentative = false) st := by
    constructor
    · intro e he hpfx
      rw [hclean e he] at hpfx
      cases hpfx
    · intro e1 he1 e2 he2 hpfx _
      rw [hclean e1 he1] at hpfx
      cases hpfx
  unfold registerCredentialPostCrypto
  dsimp only
  split
  · exact atMostOne_of_false st h0
  · rename_i callResult0 hbroker
    split
    · exact atMostOne_of_false st h0
    · rename_i cspEntry hfind
      split
      · exact atMostOne_of_false st h0
      · rename_i regions hregions
        split
        · rename_i e1 st1 hloop
          have h1 : connInv (fun c => c.RegionRepresentative = false) st1 := by
            have hbig := connInv_registerConnConfigLoop
              (fun c => c.RegionRepresentative = false) (fun _ h => h) ci o
              (strToLower callResult0.ProviderName) cspEntry.2.Driver
              callResult0.CredentialName (strToLower req.CredentialHolder) regions st h0
            rw [congrArg Prod.snd hloop] at hbig
            exact hbig
          exact atMostOne_of_false st1 h1
        · rename_i u st1 hloop
          have h1 : connInv (fun c => c.RegionRepresentative = false) st1 := by
            have hbig := connInv_registerConnConfigLoop
              (fun c => c.RegionRepresentative = false) (fun _ h => h) ci o
              (strToLower callResult0.ProviderName) cspEntry.2.Driver
              callResult0.CredentialName (strToLower req.CredentialHolder) regions st h0
            rw [congrArg Prod.snd hloop] at hbig
            exact hbig
          split
          · exact atMostOne_of_false st1 h1
          · rename_i allConns hall
            have h2 : connInv (fun c => c.RegionRepresentative = false)
                (writeVerified st1 ((allConns.filter
                    (fun c => strEqFold (strToLower callResult0.ProviderName) c.ProviderName)).map
                  (fun c => ({ c with ProviderName := strToLower c.ProviderName} : ConnConfig)) |>.map
                  (fun c => probeConn ci o c))) := by
              unfold writeVerified
              refine connInv_foldl_put _ (fun c => c) (fun _ => rfl) _ _ h1 ?_
              intro c hc
              have hc1 := (List.mem_filter.mp hc).1
              obtain ⟨c0, hc0, rfl⟩ := List.mem_map.mp hc1
              obtain ⟨c00, hc00, rfl⟩ := List.mem_map.mp hc0
              have hc2 := (List.mem_filter.mp hc00).1
              obtain ⟨e0, he0, hev, hep⟩ := GetConnConfigList_mem st1 _ false false
                allConns hall c00 hc2
              obtain ⟨c3, hc3v, _, hc3r⟩ := h1.1 e0 he0 hep
              rw [hev] at hc3v
              cases hc3v
              rw [probeConn_rep]
              exact hc3r
            split
            · exact atMostOne_of_false _ h2
            · rename_i allConns2 hall2
              have h3 : connInv
                  (repCharacter (electRepresentatives
                    (strToLower req.ProviderName) allConns2))
                  (writeReps (writeVerified st1 ((allConns.filter
                      (fun c => strEqFold (strToLower callResult0.ProviderName) c.ProviderName)).map
                    (fun c => ({ c with ProviderName := strToLower c.ProviderName} : ConnConfig)) |>.map
                    (fun c => probeConn ci o c)))
                    (electRepresentatives (strToLower req.ProviderName) allConns2)) := by
                unfold writeReps
                refine connInv_foldl_put _
                  (fun c => { c with RegionRepresentative := true }) (fun _ => rfl) _ _ ?_ ?_
                · refine connInv_mono _ _ _ ?_ h2
                  intro c hc htrue
                  rw [hc] at htrue
                  cases htrue
                · intro c hc _
                  exact ⟨c, hc, rfl, rfl⟩
              split
              · exact atMostOne_of_charact _ _ (electRepsAux_regions _ _ []) h3
              · rename_i verifiedConns hver
                have h4 : connInv
                    (repCharacter (electRepresentatives
                      (strToLower req.ProviderName) allConns2))
                    (zoneRewriteLoop (strToLower req.ProviderName) verifiedConns
                      (writeReps (writeVerified st1 ((allConns.filter
                          (fun c => strEqFold (strToLower callResult0.ProviderName)
                            c.ProviderName)).map
                        (fun c => ({ c with ProviderName := strToLower c.ProviderName} :
                          ConnConfig)) |>.map
                        (fun c => probeConn ci o c)))
                        (electRepresentatives (strToLower req.ProviderName) allConns2))
                      (match GetConnConfigList (writeReps (writeVerified st1 ((allConns.filter
                            (fun c => strEqFold (strToLower callResult0.ProviderName)
                              c.ProviderName)).map
                          (fun c => ({ c with ProviderName := strToLower c.ProviderName} :
                            ConnConfig)) |>.map
                          (fun c => probeConn ci o c)))
                          (electRepresentatives (strToLower req.ProviderName) allConns2))
                          (strToLower req.CredentialHolder) false true with
                        | Except.ok l => l
                        | Except.error _ => [])) := by
                  refine connInv_zoneRewriteLoop _ _ _ _ _ h3 ?_
                  intro c hc
                  cases hrep : GetConnConfigList (writeReps (writeVerified st1 ((allConns.filter
                        (fun c => strEqFold (strToLower callResult0.ProviderName)
                          c.ProviderName)).map
                      (fun c => ({ c with ProviderName := strToLower c.ProviderName} :
                        ConnConfig)) |>.map
                      (fun c => probeConn ci o c)))
                      (electRepresentatives (strToLower req.ProviderName) allConns2))
                      (strToLower req.CredentialHolder) false true with
                  | error e2 =>
                    rw [hrep] at hc
                    exact absurd hc (List.not_mem_nil c)
                  | ok l =>
                    rw [hrep] at hc
                    obtain ⟨e0, he0, hev, hep⟩ := GetConnConfigList_mem _ _ false true
                      l hrep c hc
                    obtain ⟨c3, hc3v, _, hc3p⟩ := h3.1 e0 he0 hep
                    rw [hev] at hc3v
                    cases hc3v
                    intro hz
                    obtain ⟨hz1, hz2, hz3⟩ := zoneRewriteOf_fields verifiedConns c
                    rw [hz1] at hz
                    obtain ⟨r, hrm, hrc, hrr⟩ := hc3p hz
                    exact ⟨r, hrm, hz2.trans hrc, by rw [hz3]; exact hrr⟩
                split
                · exact atMostOne_of_charact _ _ (electRepsAux_regions _ _ []) h4
                · exact atMostOne_of_charact _ _ (electRepsAux_regions _ _ []) h4

/-- C3, amended claim: after `RegisterCredential` returns (for any
outcome), at most one ConnConfig stored under the /connection/ key prefix
per (credentialHolder, provider, region) triple has
RegionRepresentative=true — the per-(provider, region) version without the
holder is refuted by the counterexample. Stated for runs starting from a
store without /connection/ entries (the state in which connection
registration begins). -/
theorem claim_C3_amended (ps : PrivStore) (st : KVStore) (ci : CloudInfo)
    (o : RegisterCredentialOracle) (req : CredentialReq)
    (hclean : ∀ e ∈ st, strHasPfx "/connection/" e.1 = false) :
    atMostOneRepPerHolder (RegisterCredential ps st ci o req).2.2 := by
  have hbase : atMostOneRepPerHolder st := by
    intro e1 he1 e2 he2 c1 c2 hp1 _ _ _ _ _ _ _ _
    exfalso
    rw [hclean e1 he1] at hp1
    cases hp1
  unfold RegisterCredential
  split
  · exact hbase
  · split
    · exact hbase
    · split
      · exact hbase
      · split
        · exact hbase
        · exact hbase
        · rename_i dl hdl
          dsimp only
          exact registerCredentialPostCrypto_atMostOne st ci o req dl hclean

/-- C3, witness: the amended claim at the concrete single-holder run of
the counterexample scenario. -/
theorem claim_C3_amended_witness :
    atMostOneRepPerHolder
      (RegisterCredential [("t1", "k")] [] c3Cloud c3Oracle c3ReqAlice).2.2 :=
  claim_C3_amended [("t1", "k")] [] c3Cloud c3Oracle c3ReqAlice
    (fun e he => absurd he (List.not_mem_nil e))

end Tumblebug
